import Mathlib

/-!
go-sc-client: template codec and construction builder

A shallow embedding of the pure parts of the `sc` package (`sc_addr.go`,
`sc_type.go`, `sc_template.go`, `sc_construction.go` and the payload
encoders and reply decoders of `sc_client.go`), followed by theorems about
them.

Conventions of the embedding:
* a Go `interface{}` value is a `GoValue`;
* a Go `map[K]V` is an association list `List (K × V)` read with
  `mapGet` and written with `mapSet`; a `nil` map is `none` where the code
  tests for it;
* a Go panic is `Except.error` carrying the panic message;
* Go `int` and `int64` are `Int` (no arithmetic that could overflow occurs).
-/

namespace Sc

/-! ## Constants (constants.go) -/

def ScTypeNode : Int := 0x1
def ScTypeLink : Int := 0x2
def ScTypeUEdgeCommon : Int := 0x4
def ScTypeDEdgeCommon : Int := 0x8
def ScTypeEdgeAccess : Int := 0x10
def ScTypeConst : Int := 0x20
def ScTypeVar : Int := 0x40
def ScTypeEdgePos : Int := 0x80
def ScTypeEdgePerm : Int := 0x800
def ScTypeArcPosConstPerm : Int :=
  Int.lor (Int.lor (Int.lor ScTypeEdgeAccess ScTypeConst) ScTypeEdgePos) ScTypeEdgePerm
def ScTypeArcPosVarPerm : Int :=
  Int.lor (Int.lor (Int.lor ScTypeEdgeAccess ScTypeVar) ScTypeEdgePos) ScTypeEdgePerm

/-! ## Addresses and types (sc_addr.go, sc_type.go) -/

/-- ScAddr: the identifier of a graph element (`Value int64`). -/
structure ScAddr where
  Value : Int
  deriving DecidableEq, Repr

/-- IsValid: `a.Value != 0`. -/
def ScAddr.IsValid (a : ScAddr) : Bool :=
  a.Value != 0

/-- ScType: a type bitmask (`Value int`). -/
structure ScType where
  Value : Int
  deriving DecidableEq, Repr

/-- IsNode: `(t.Value & ScTypeNode) != 0`. -/
def ScType.IsNode (t : ScType) : Bool :=
  Int.land t.Value ScTypeNode != 0

/-- IsEdge: `(t.Value & (ScTypeEdgeAccess | ScTypeDEdgeCommon | ScTypeUEdgeCommon)) != 0`. -/
def ScType.IsEdge (t : ScType) : Bool :=
  Int.land t.Value (Int.lor (Int.lor ScTypeEdgeAccess ScTypeDEdgeCommon) ScTypeUEdgeCommon) != 0

/-- IsLink: `(t.Value & ScTypeLink) != 0`. -/
def ScType.IsLink (t : ScType) : Bool :=
  Int.land t.Value ScTypeLink != 0

/-! ## Dynamic values -/

/-- A float64 that JSON decoding can produce: a finite number, kept as the
rational it denotes. -/
structure Float64 where
  toRat : ℚ
  deriving DecidableEq

/-- Whether the number with its fraction discarded is an int64 (and an int,
which is 64 bits wide): it lies in `[-2^63, 2^63)`. -/
def Float64.fitsInt64 (f : Float64) : Bool :=
  decide (-(2 : Int) ^ 63 ≤ Int.tdiv f.toRat.num f.toRat.den ∧
    Int.tdiv f.toRat.num f.toRat.den < (2 : Int) ^ 63)

/-- The Go conversions `int64(f)` and `int(f)`: the fraction is discarded
(truncation toward zero). When the result does not fit the type, Go leaves
the value to the implementation; the model then takes the minimum int64,
the value amd64 gives, so that every result is an int64. -/
def Float64.toInt (f : Float64) : Int :=
  if f.fitsInt64 then Int.tdiv f.toRat.num f.toRat.den else -(2 : Int) ^ 63

/-- The dynamic values (`interface{}`) that occur in this package. The
constructor `templateValue` is an `ScTemplateValue` struct stored in an
interface; `linkContentType` is a value of the named type
`ScLinkContentType`. -/
inductive GoValue where
  | nil
  | bool (b : Bool)
  | int (n : Int)
  | int64 (n : Int)
  | float64 (f : Float64)
  | string (s : String)
  | scAddr (a : ScAddr)
  | scType (t : ScType)
  | linkContentType (n : Int)
  | slice (xs : List GoValue)
  | map (kvs : List (String × GoValue))
  | templateValue (Value : GoValue) (Alias : String)

/-- Reading `m[k]` with the comma-ok form: the entry bound to `k`, if any. -/
def mapGet {K V : Type} [DecidableEq K] (m : List (K × V)) (k : K) : Option V :=
  match m with
  | [] => none
  | (k1, v) :: rest => if k1 = k then some v else mapGet rest k

/-- The assignment `m[k] = v`: any earlier entry for `k` is replaced. -/
def mapSet {K V : Type} [DecidableEq K] (m : List (K × V)) (k : K) (v : V) : List (K × V) :=
  (k, v) :: m.filter (fun p => !decide (p.1 = k))

/-- Reading `m[k]` on a `map[string]interface{}`: an absent key yields the
zero value, the nil interface. -/
def mapIndex (m : List (String × GoValue)) (k : String) : GoValue :=
  (mapGet m k).getD GoValue.nil

/-- Slice indexing `xs[i]`: panics when `i` is out of range. -/
def sliceIndex {α : Type} (xs : List α) (i : Int) : Except String α :=
  if 0 ≤ i then
    match xs.get? i.toNat with
    | some x => .ok x
    | none => .error "index out of range"
  else .error "index out of range"

/-- The type assertion `v.(float64)`. -/
def asFloat64 : GoValue → Except String Float64
  | .float64 f => .ok f
  | _ => .error "interface conversion: not float64"

/-- The type assertion `v.([]interface{})`. -/
def asSlice : GoValue → Except String (List GoValue)
  | .slice xs => .ok xs
  | _ => .error "interface conversion: not a slice"

/-- The type assertion `v.(map[string]interface{})`. -/
def asMap : GoValue → Except String (List (String × GoValue))
  | .map kvs => .ok kvs
  | _ => .error "interface conversion: not a map"

/-- The verb `%d` of `fmt.Sprintf` on a non-negative `int`: its decimal
digits, most significant first. -/
def formatDecimal (n : Nat) : String :=
  if n = 0 then "0" else String.mk ((Nat.digits 10 n).reverse.map Nat.digitChar)

/-! ## Templates (sc_template.go) -/

/-- ScTemplateValue: one slot of a triple. -/
structure ScTemplateValue where
  Value : GoValue
  Alias : String

/-- ScTemplateTriple: a (source, edge, target) triple of slots. -/
structure ScTemplateTriple where
  Source : ScTemplateValue
  Edge : ScTemplateValue
  Target : ScTemplateValue

/-- ScTemplate: the ordered triples of a template. -/
structure ScTemplate where
  Triples : List ScTemplateTriple

/-- The empty template, `&ScTemplate{}`. -/
def emptyTemplate : ScTemplate := { Triples := [] }

/-- The method `splitTemplateParam`. A `[]interface{}` parameter must have
two elements, the second a string and the first an ScAddr or ScType; every
other parameter becomes the value of a slot with the empty alias. -/
def splitTemplateParam (param : GoValue) : Except String ScTemplateValue :=
  match param with
  | .slice v =>
    match v with
    | [value, second] =>
      match second with
      | .string al =>
        match value with
        | .scAddr _ => .ok { Value := value, Alias := al }
        | .scType _ => .ok { Value := value, Alias := al }
        | _ => .error "first parameter should be ScAddr or ScType"
      | _ => .error "second parameter should be string"
    | _ => .error "invalid number of values for replacement. Use [ScType | ScAddr, string]"
  | _ => .ok { Value := param, Alias := "" }

/-- The method `Triple`: splits the three parameters and appends one triple. -/
def ScTemplate.Triple (t : ScTemplate) (param1 param2 param3 : GoValue) :
    Except String ScTemplate := do
  let p1 ← splitTemplateParam param1
  let p2 ← splitTemplateParam param2
  let p3 ← splitTemplateParam param3
  pure { Triples := t.Triples ++ [{ Source := p1, Edge := p2, Target := p3 }] }

/-- The alias that `TripleWithRelation` chooses for its edge: the alias of
the split second parameter, or `edge_1_<len(t.Triples)>` when that is empty. -/
def relationAlias (t : ScTemplate) (p2 : ScTemplateValue) : String :=
  if p2.Alias = "" then "edge_1_" ++ formatDecimal t.Triples.length else p2.Alias

/-- The method `TripleWithRelation`. The second parameter handed to the
first `Triple` call is an `ScTemplateValue` struct, the third parameter of
the second call is the alias as a string. -/
def ScTemplate.TripleWithRelation (t : ScTemplate)
    (param1 param2 param3 param4 param5 : GoValue) : Except String ScTemplate := do
  let p2 ← splitTemplateParam param2
  let al := relationAlias t p2
  let t1 ← t.Triple param1 (.templateValue p2.Value al) param3
  t1.Triple param5 param4 (.string al)

/-- ScTemplateResult: the addresses of one match and the alias table. -/
structure ScTemplateResult where
  Addrs : List ScAddr
  Indices : List (String × Int)

/-- The method `Get`: `r.Addrs[r.Indices[v]]` for a string (an absent key
reads as the zero value 0), `r.Addrs[v]` for an int, a panic otherwise. -/
def ScTemplateResult.Get (r : ScTemplateResult) (aliasOrIndex : GoValue) : Except String ScAddr :=
  match aliasOrIndex with
  | .string v => sliceIndex r.Addrs ((mapGet r.Indices v).getD 0)
  | .int v => sliceIndex r.Addrs v
  | _ => .error "aliasOrIndex should be string or int"

/-! ## Constructions (sc_link_content.go, sc_construction.go) -/

/-- ScLinkContent: content of a link (`Type` is an `ScLinkContentType`, an
int; `Addr` is a pointer that may be nil). -/
structure ScLinkContent where
  Data : GoValue
  Typ : Int
  Addr : Option ScAddr

/-- ScConstructionCommand: one pending creation command. -/
structure ScConstructionCommand where
  Typ : ScType
  Data : GoValue

/-- ScConstruction: the pending commands and the alias table, a
`map[string]int` that is nil (`none`) until the first alias is bound. -/
structure ScConstruction where
  Commands : List ScConstructionCommand
  Aliases : Option (List (String × Int))

/-- The tail shared by `CreateNode`, `CreateEdge` and `CreateLink`: bind a
non-empty alias to `len(c.Commands)` (making the map first when it is nil),
then append the command. -/
def ScConstruction.addCommand (c : ScConstruction) (cmd : ScConstructionCommand)
    (al : String) : ScConstruction :=
  let aliases :=
    if al ≠ "" then
      some (mapSet (c.Aliases.getD []) al (c.Commands.length : Int))
    else c.Aliases
  { Commands := c.Commands ++ [cmd], Aliases := aliases }

/-- The method `CreateNode`: the construction afterwards and the returned
error (`none` is the nil error). -/
def ScConstruction.CreateNode (c : ScConstruction) (t : ScType) (al : String) :
    ScConstruction × Option String :=
  if !t.IsNode then (c, some "you should pass node type there")
  else (c.addCommand { Typ := t, Data := .nil } al, none)

/-- The method `CreateEdge`. -/
def ScConstruction.CreateEdge (c : ScConstruction) (t : ScType) (src trg : GoValue)
    (al : String) : ScConstruction × Option String :=
  if !t.IsEdge then (c, some "you should pass edge type there")
  else (c.addCommand { Typ := t, Data := .map [("src", src), ("trg", trg)] } al, none)

/-- The method `CreateLink`. -/
def ScConstruction.CreateLink (c : ScConstruction) (t : ScType) (content : ScLinkContent)
    (al : String) : ScConstruction × Option String :=
  if !t.IsLink then (c, some "you should pass link type there")
  else (c.addCommand
    { Typ := t, Data := .map [("content", content.Data), ("type", .linkContentType content.Typ)] }
    al, none)

/-- The method `GetIndex`: `(0, false)` on a nil table, otherwise the
comma-ok read of the table. -/
def ScConstruction.GetIndex (c : ScConstruction) (al : String) : Int × Bool :=
  match c.Aliases with
  | none => (0, false)
  | some m =>
    match mapGet m al with
    | some idx => (idx, true)
    | none => (0, false)

/-! ## Client: payload encoders, requests and reply decoders (sc_client.go) -/

/-- Response: a record received from the server. -/
structure Response where
  ID : Int
  Status : Bool
  Event : Bool
  Payload : GoValue

/-- Request: a record sent to the server. -/
structure Request where
  ID : Int
  Typ : String
  Payload : GoValue

/-- The method `processTripleItem`: the wire record of one slot. -/
def processTripleItem (item : ScTemplateValue) : Except String (List (String × GoValue)) :=
  let result : List (String × GoValue) :=
    if item.Alias ≠ "" then mapSet [] "alias" (.string item.Alias) else []
  match item.Value with
  | .scAddr v => .ok (mapSet (mapSet result "type" (.string "addr")) "value" (.int64 v.Value))
  | .scType v => .ok (mapSet (mapSet result "type" (.string "type")) "value" (.int v.Value))
  | .string v => .ok (mapSet (mapSet result "type" (.string "alias")) "value" (.string v))
  | _ => .error "invalid triple item type"

/-- The method `prepareTemplatePayload`: one 3-element array per triple. -/
def prepareTemplatePayload (template : ScTemplate) : Except String (List GoValue) :=
  template.Triples.mapM (fun triple => do
    let s ← processTripleItem triple.Source
    let e ← processTripleItem triple.Edge
    let g ← processTripleItem triple.Target
    pure (GoValue.slice [.map s, .map e, .map g]))

/-- The method `prepareTemplateParams`. -/
def prepareTemplateParams (params : List (String × ScAddr)) : List (String × GoValue) :=
  params.foldl (fun result p => mapSet result p.1 (.int64 p.2.Value)) []

/-- The function stored in the `Callback` field of an event: one of the two
handlers of an ScSet, or a function of the caller, told apart by a number. -/
inductive EventCallback where
  | onEventAddElement
  | onEventRemoveElement
  | other (n : Nat)
  deriving DecidableEq, Repr

/-- ScEvent: a live subscription (`Type` is an `ScEventType`, a string). -/
structure ScEvent where
  ID : Int
  Typ : String
  Callback : EventCallback
  deriving DecidableEq, Repr

/-- ScEventParams: what `EventsCreate` is given for one subscription. -/
structure ScEventParams where
  Addr : ScAddr
  Typ : String
  Callback : EventCallback
  deriving DecidableEq, Repr

/-- The closure a request method hands to `sendMessage`, named after the
method that made it. The closure of `EventsCreate` captures the slice
`events` the method was called with. -/
inductive ReplyHandler where
  | checkElements
  | createElements
  | deleteElements
  | setLinkContents
  | getLinkContents
  | resolveKeynodes
  | templateSearch
  | templateGenerate
  | eventsCreate (events : List ScEventParams)
  | eventsDestroy
  deriving DecidableEq, Repr

/-- A closure on `messageQueue`: a deferred `sendMessage` call. -/
structure QueuedSend where
  actionType : String
  payload : GoValue
  callback : ReplyHandler

/-- ScClient: the fields of the client that sending and receiving touch.
`connected` is `c.conn != nil`; `written` lists the requests handed to
`conn.WriteMessage` with success. The mutex and the channels are not part
of the state. -/
structure ScClient where
  connected : Bool
  messageQueue : List QueuedSend
  callbacks : List (Int × ReplyHandler)
  events : List (Int × ScEvent)
  eventID : Int
  written : List Request

/-- What the environment does during one `sendMessage`: whether
`json.Marshal` and `conn.WriteMessage` succeed. -/
structure SendEnv where
  marshalOk : Bool
  writeOk : Bool

/-- The method `sendMessage`. -/
def ScClient.sendMessage (c : ScClient) (env : SendEnv) (actionType : String)
    (payload : GoValue) (callback : ReplyHandler) : ScClient :=
  let id := c.eventID + 1
  let c1 : ScClient := { c with eventID := id, callbacks := mapSet c.callbacks id callback }
  if !env.marshalOk then c1
  else if c1.connected then
    if env.writeOk then
      { c1 with written := c1.written ++ [{ ID := id, Typ := actionType, Payload := payload }] }
    else
      { c1 with messageQueue := c1.messageQueue ++
          [{ actionType := actionType, payload := payload, callback := callback }] }
  else
    { c1 with messageQueue := c1.messageQueue ++
        [{ actionType := actionType, payload := payload, callback := callback }] }

/-- The method `TemplateSearch` up to the wait on the result channel: the
payload is prepared first; a panic there (`some msg`) leaves the method
before `sendMessage` is reached. -/
def ScClient.TemplateSearch (c : ScClient) (env : SendEnv) (template : ScTemplate) :
    ScClient × Option String :=
  match prepareTemplatePayload template with
  | .error msg => (c, some msg)
  | .ok payload => (c.sendMessage env "search_template" (.slice payload) .templateSearch, none)

/-- The method `TemplateGenerate` up to the wait on the result channel. -/
def ScClient.TemplateGenerate (c : ScClient) (env : SendEnv) (template : ScTemplate)
    (params : List (String × ScAddr)) : ScClient × Option String :=
  match prepareTemplatePayload template with
  | .error msg => (c, some msg)
  | .ok templ =>
    (c.sendMessage env "generate_template"
      (.map [("templ", .slice templ), ("params", .map (prepareTemplateParams params))])
      .templateGenerate, none)

/-- The conversion loop `aliasIndices[alias] = int(index.(float64))` over
the alias table of a response. -/
def decodeAliasIndices (aliases : List (String × GoValue)) : Except String (List (String × Int)) :=
  aliases.foldlM (fun aliasIndices p => do
    let index ← asFloat64 p.2
    pure (mapSet aliasIndices p.1 index.toInt)) []

/-- The conversion loop `addrs[j] = ScAddr{Value: int64(addr.(float64))}`. -/
def decodeAddrs (addrValues : List GoValue) : Except String (List ScAddr) :=
  addrValues.mapM (fun addr => do
    let f ← asFloat64 addr
    pure { Value := f.toInt })

/-- The reply closure of `TemplateSearch`: the value it puts on the result
channel (`none` is the nil slice sent on a failure status), or a panic. -/
def templateSearchReply (response : Response) :
    Except String (Option (List ScTemplateResult)) :=
  if !response.Status then .ok none
  else do
    let responseData ← asMap response.Payload
    let aliases ← asMap (mapIndex responseData "aliases")
    let addrsData ← asSlice (mapIndex responseData "addrs")
    let results ← addrsData.mapM (fun addrList => do
      let addrValues ← asSlice addrList
      let addrs ← decodeAddrs addrValues
      let aliasIndices ← decodeAliasIndices aliases
      pure ({ Addrs := addrs, Indices := aliasIndices } : ScTemplateResult))
    pure (some results)

/-! ## Client: submitting a construction (sc_client.go) -/

/-- The method `transformEdgeInfo`: the wire form of an edge endpoint. -/
def transformEdgeInfo (construction : ScConstruction) (aliasOrAddr : GoValue) :
    Except String (List (String × GoValue)) :=
  match aliasOrAddr with
  | .scAddr v => .ok (mapSet (mapSet [] "type" (.string "addr")) "value" (.int64 v.Value))
  | .string v =>
    match construction.GetIndex v with
    | (idx, true) => .ok (mapSet (mapSet [] "type" (.string "ref")) "value" (.int idx))
    | (_, false) => .error ("invalid alias: " ++ v)
  | _ => .error "invalid type for edge info"

/-- The record `CreateElements` builds for one command: dispatch on
`IsNode`, then `IsEdge`, then `IsLink`; a command of none of these kinds
leaves its entry nil. -/
def createElementRecord (construction : ScConstruction) (cmd : ScConstructionCommand) :
    Except String GoValue :=
  if cmd.Typ.IsNode then
    .ok (.map (mapSet (mapSet [] "el" (.string "node")) "type" (.int cmd.Typ.Value)))
  else if cmd.Typ.IsEdge then do
    let data ← asMap cmd.Data
    let src ← transformEdgeInfo construction (mapIndex data "src")
    let trg ← transformEdgeInfo construction (mapIndex data "trg")
    pure (.map (mapSet (mapSet (mapSet (mapSet [] "el" (.string "edge"))
      "type" (.int cmd.Typ.Value)) "src" (.map src)) "trg" (.map trg)))
  else if cmd.Typ.IsLink then do
    let data ← asMap cmd.Data
    pure (.map (mapSet (mapSet (mapSet (mapSet [] "el" (.string "link"))
      "type" (.int cmd.Typ.Value)) "content" (mapIndex data "content"))
      "content_type" (mapIndex data "type")))
  else .ok .nil

/-- The payload loop of `CreateElements`: one record per command, in order. -/
def createElementsPayload (construction : ScConstruction) : Except String (List GoValue) :=
  construction.Commands.mapM (createElementRecord construction)

/-- The method `CreateElements` up to the wait on the result channel: a
panic while the payload is built (`some msg`) leaves the method before
`sendMessage` is reached. -/
def ScClient.CreateElements (c : ScClient) (env : SendEnv) (construction : ScConstruction) :
    ScClient × Option String :=
  match createElementsPayload construction with
  | .error msg => (c, some msg)
  | .ok payload => (c.sendMessage env "create_elements" (.slice payload) .createElements, none)

/-! ## Client: the inbound pump and the wait of a request (sc_client.go) -/

/-- The statement `delete(m, k)`. -/
def mapDelete {K V : Type} [DecidableEq K] (m : List (K × V)) (k : K) : List (K × V) :=
  m.filter (fun p => !decide (p.1 = k))

/-- One call made by the pump: a reply closure with the response, or the
callback of an event with its three addresses and the subscription id. -/
inductive Invocation where
  | reply (callback : ReplyHandler) (response : Response)
  | event (callback : EventCallback) (elAddr edge other : ScAddr) (eventID : Int)

/-- How a call that can reach `c.mu.Lock()` ends: it returns, it panics, or
it waits for the mutex for ever. -/
inductive CallEnd (α : Type) where
  | returned (value : α)
  | panicked (msg : String)
  | blocked

/-- How the functions the pump calls end. `reply` is for the closures that
write no field of the client, which is every closure but the one of
`EventsCreate`: they decode the response and put one value on a result
channel of capacity 1, so they return (`none`) or panic in the decoding
(`some msg`). `event` is for the callback of a subscription, which runs
while the pump holds `c.mu`. -/
structure Handlers where
  reply : ReplyHandler → Response → Option String
  event : EventCallback → ScAddr → ScAddr → ScAddr → Int → CallEnd Unit

/-- What handling one response leaves: the client, the calls made, the
panic that ended the pump, if any, and whether the pump is left waiting
inside the call with `c.mu` held. -/
structure PumpResult where
  client : ScClient
  invoked : List Invocation
  panic : Option String
  blocked : Bool

/-- The three addresses of an event push: `payload[0]`, `payload[1]`,
`payload[2]` of the payload asserted to be an array of float64. -/
def eventAddrs (payload : GoValue) : Except String (ScAddr × ScAddr × ScAddr) := do
  let items ← asSlice payload
  let a ← sliceIndex items 0
  let fa ← asFloat64 a
  let b ← sliceIndex items 1
  let fb ← asFloat64 b
  let d ← sliceIndex items 2
  let fd ← asFloat64 d
  pure ({ Value := fa.toInt }, { Value := fb.toInt }, { Value := fd.toInt })

/-- The loop of the closure of `EventsCreate` over the ids replied, from
the position `i` on: the id is asserted to be a float64, `events[i]` is
read, and the event made of them is stored in `c.events` under the id. -/
def eventsCreateLoop (events : List ScEventParams) :
    ScClient → Nat → List GoValue → ScClient × Option String
  | c, _, [] => (c, none)
  | c, i, id :: rest =>
    match asFloat64 id with
    | .error msg => (c, some msg)
    | .ok f =>
      match sliceIndex events (i : Int) with
      | .error msg => (c, some msg)
      | .ok params =>
        eventsCreateLoop events
          { c with events := mapSet c.events f.toInt ⟨f.toInt, params.Typ, params.Callback⟩ }
          (i + 1) rest

/-- The closure of `EventsCreate` called with a response: the client
afterwards and the panic, if any. A failure status writes nothing. -/
def eventsCreateReply (c : ScClient) (events : List ScEventParams) (response : Response) :
    ScClient × Option String :=
  if !response.Status then (c, none)
  else
    match asSlice response.Payload with
    | .error msg => (c, some msg)
    | .ok eventIDs => eventsCreateLoop events c 0 eventIDs

/-- The call `callback(response)` of the pump: the client afterwards and
the panic, if any. -/
def ReplyHandler.invoke (callback : ReplyHandler) (h : Handlers) (c : ScClient)
    (response : Response) : ScClient × Option String :=
  match callback with
  | .eventsCreate events => eventsCreateReply c events response
  | .checkElements => (c, h.reply .checkElements response)
  | .createElements => (c, h.reply .createElements response)
  | .deleteElements => (c, h.reply .deleteElements response)
  | .setLinkContents => (c, h.reply .setLinkContents response)
  | .getLinkContents => (c, h.reply .getLinkContents response)
  | .resolveKeynodes => (c, h.reply .resolveKeynodes response)
  | .templateSearch => (c, h.reply .templateSearch response)
  | .templateGenerate => (c, h.reply .templateGenerate response)
  | .eventsDestroy => (c, h.reply .eventsDestroy response)

/-- The body of the loop of `connect` for one decoded response, from
`c.mu.Lock()` to `c.mu.Unlock()`: an event push goes to the callback of
the event registered under its id; a reply goes to the closure registered
under its id, which is deleted from the table once the closure returned. -/
def ScClient.handleResponse (c : ScClient) (h : Handlers) (response : Response) : PumpResult :=
  if response.Event then
    match mapGet c.events response.ID with
    | some event =>
      match eventAddrs response.Payload with
      | .error msg => { client := c, invoked := [], panic := some msg, blocked := false }
      | .ok (a, b, d) =>
        match h.event event.Callback a b d response.ID with
        | .returned _ =>
          { client := c, invoked := [.event event.Callback a b d response.ID], panic := none,
            blocked := false }
        | .panicked msg =>
          { client := c, invoked := [.event event.Callback a b d response.ID],
            panic := some msg, blocked := false }
        | .blocked =>
          { client := c, invoked := [.event event.Callback a b d response.ID], panic := none,
            blocked := true }
    | none => { client := c, invoked := [], panic := none, blocked := false }
  else
    match mapGet c.callbacks response.ID with
    | some callback =>
      match callback.invoke h c response with
      | (c1, some msg) =>
        { client := c1, invoked := [.reply callback response], panic := some msg,
          blocked := false }
      | (c1, none) =>
        { client := { c1 with callbacks := mapDelete c1.callbacks response.ID },
          invoked := [.reply callback response], panic := none, blocked := false }
    | none => { client := c, invoked := [], panic := none, blocked := false }

/-- The request type each method passes to `sendMessage`. -/
def ReplyHandler.actionType : ReplyHandler → String
  | .checkElements => "check_elements"
  | .createElements => "create_elements"
  | .deleteElements => "delete_elements"
  | .setLinkContents => "content"
  | .getLinkContents => "content"
  | .resolveKeynodes => "keynodes"
  | .templateSearch => "search_template"
  | .templateGenerate => "generate_template"
  | .eventsCreate _ => "events"
  | .eventsDestroy => "events"

/-- The error each method returns from the `time.After` branch of its select. -/
def ReplyHandler.timeoutError : ReplyHandler → String
  | .checkElements => "timeout while checking elements"
  | .createElements => "timeout while creating elements"
  | .deleteElements => "timeout while deleting elements"
  | .setLinkContents => "timeout while setting link contents"
  | .getLinkContents => "timeout while getting link contents"
  | .resolveKeynodes => "timeout while resolving keynodes"
  | .templateSearch => "timeout while searching template"
  | .templateGenerate => "timeout while generating template"
  | .eventsCreate _ => "timeout while creating events"
  | .eventsDestroy => "timeout while destroying events"

/-- A request method on the path where no reply arrives: the payload went
to `sendMessage` with the closure of the method, the select takes the
`time.After` branch and the method returns its timeout error. That branch
has no other statement. -/
def ScClient.requestTimedOut (c : ScClient) (env : SendEnv) (method : ReplyHandler)
    (payload : GoValue) : ScClient × String :=
  (c.sendMessage env method.actionType payload method, method.timeoutError)

/-- The method `EventsDestroy`. `outcome` is what the select receives:
`some status` when the pump passed a reply to the closure, which puts
`response.Status` on the channel and whose table entry the pump deletes,
`none` when the timeout fires first. -/
def ScClient.EventsDestroy (c : ScClient) (env : SendEnv) (eventIDs : List Int)
    (outcome : Option Bool) : ScClient × Option String :=
  let c1 := c.sendMessage env "events"
    (.map (mapSet [] "delete" (.slice (eventIDs.map GoValue.int)))) .eventsDestroy
  match outcome with
  | none => (c1, some "timeout while destroying events")
  | some res =>
    let c2 : ScClient := { c1 with callbacks := mapDelete c1.callbacks (c.eventID + 1) }
    if !res then (c2, some "failed to destroy events")
    else ({ c2 with events := eventIDs.foldl mapDelete c2.events }, none)

/-- One step of a client: a `sendMessage` call or a response handled by the
pump. -/
inductive ClientStep where
  | send (env : SendEnv) (actionType : String) (payload : GoValue) (callback : ReplyHandler)
  | receive (response : Response)

/-- Runs a sequence of steps: the client afterwards and the correlation
ids issued, in order: for each `sendMessage` call the value of the counter
the call leaves, which is the `ID` of the request it builds. A panic in the
pump, or a pump left waiting with the mutex held, ends the run. -/
def runClientSteps (h : Handlers) (c : ScClient) : List ClientStep → ScClient × List Int
  | [] => (c, [])
  | .send env actionType payload callback :: rest =>
    let r := runClientSteps h (c.sendMessage env actionType payload callback) rest
    (r.1, (c.sendMessage env actionType payload callback).eventID :: r.2)
  | .receive response :: rest =>
    match (c.handleResponse h response).panic, (c.handleResponse h response).blocked with
    | none, false => runClientSteps h (c.handleResponse h response).client rest
    | _, _ => ((c.handleResponse h response).client, [])

/-! ## Sets (sc_set.go)

The client methods an ScSet calls are taken by their outcome: what the
method returns to the set, given as an argument of the function that
models the caller. -/

/-- How a request of the client ends for its caller: a reply with a
success status that decoded to `value`, a reply with a failure status, or
no reply within the wait. -/
inductive CallOutcome (α : Type) where
  | replied (value : α)
  | failed
  | timedOut

/-- What `CheckElements` returns: no request for an empty list, otherwise
the types replied or the nil slice with the error of the method. -/
def CheckElements (addrs : List ScAddr) (outcome : CallOutcome (List ScType)) :
    List ScType × Option String :=
  if addrs.length = 0 then ([], none)
  else
    match outcome with
    | .replied types => (types, none)
    | .failed => ([], some "failed to check elements")
    | .timedOut => ([], some "timeout while checking elements")

/-- What `TemplateSearch` returns after its request went out. -/
def TemplateSearchReturn (outcome : CallOutcome (List ScTemplateResult)) :
    List ScTemplateResult × Option String :=
  match outcome with
  | .replied results => (results, none)
  | .failed => ([], some "failed to search template")
  | .timedOut => ([], some "timeout while searching template")

/-- What `TemplateGenerate` returns after its request went out: the pointer
to the result (`none` is nil) and the error. -/
def TemplateGenerateReturn (outcome : CallOutcome ScTemplateResult) :
    Option ScTemplateResult × Option String :=
  match outcome with
  | .replied result => (some result, none)
  | .failed => (none, some "failed to generate template")
  | .timedOut => (none, some "timeout while generating template")

/-- A call of a client method made by an ScSet. -/
inductive ClientCall where
  | templateSearch (template : ScTemplate)
  | templateGenerate (template : ScTemplate) (params : List (String × ScAddr))

/-- ScSet: the address of the set, the local mapping from edge identifier
to member and the optional type filter. The functions `OnAdd`, `OnRemove`
and `OnInitialize`, set by `NewScSet`, are kept by the arguments they were
called with, in order. -/
structure ScSet where
  Addr : ScAddr
  Elements : List (Int × ScAddr)
  FilterType : Option ScType
  onAddCalls : List ScAddr
  onRemoveCalls : List ScAddr
  onInitializeCalls : List (List ScAddr)

/-- The method `shouldAppend`: the slice returned (nil is `[]`) and the
error. `outcome` is how the `CheckElements` call ends, if it is made. -/
def ScSet.shouldAppend (s : ScSet) (addrs : List ScAddr)
    (outcome : CallOutcome (List ScType)) : List Bool × Option String :=
  match s.FilterType with
  | none => (addrs.map (fun _ => true), none)
  | some filter =>
    match CheckElements addrs outcome with
    | (_, some err) => ([], some err)
    | (types, none) =>
      (types.map (fun t => decide (Int.land filter.Value t.Value = filter.Value)), none)

/-- The method `onEventAddElement`; the read `shouldAppend[0]` panics on an
empty slice. The `CheckElements` call of `shouldAppend` is taken by its
outcome, which is how the method runs when its caller does not hold `c.mu`;
`onEventAddElementUnder` below is the method with the mutex. -/
def ScSet.onEventAddElement (s : ScSet) (outcome : CallOutcome (List ScType))
    (elAddr edge _other : ScAddr) (_eventID : Int) : Except String ScSet :=
  match mapGet s.Elements edge.Value with
  | some _ => .ok s
  | none =>
    if elAddr.IsValid then
      match sliceIndex (s.shouldAppend [elAddr] outcome).1 0 with
      | .error msg => .error msg
      | .ok true =>
        .ok { s with Elements := mapSet s.Elements edge.Value elAddr,
                     onAddCalls := s.onAddCalls ++ [elAddr] }
      | .ok false => .ok s
    else .ok s

/-- The method `onEventRemoveElement`. -/
def ScSet.onEventRemoveElement (s : ScSet) (_elAddr edge _other : ScAddr) (_eventID : Int) :
    ScSet :=
  match mapGet s.Elements edge.Value with
  | some trg =>
    { s with onRemoveCalls := s.onRemoveCalls ++ [trg],
             Elements := mapDelete s.Elements edge.Value }
  | none => s

/-- The loop of `iterateExistingElements` over the search results, from
the result number `i` on: `checks i` is how the `CheckElements` call made
for result `i` ends. -/
def ScSet.seedLoop (checks : Nat → CallOutcome (List ScType)) :
    ScSet → Nat → List ScAddr → List ScTemplateResult → Except String (ScSet × List ScAddr)
  | s, _, elements, [] => .ok (s, elements)
  | s, i, elements, result :: rest =>
    match result.Get (.string "_edge") with
    | .error msg => .error msg
    | .ok edge =>
      match result.Get (.string "_item") with
      | .error msg => .error msg
      | .ok item =>
        match sliceIndex (s.shouldAppend [item] (checks i)).1 0 with
        | .error msg => .error msg
        | .ok true =>
          ScSet.seedLoop checks { s with Elements := mapSet s.Elements edge.Value item }
            (i + 1) (elements ++ [item]) rest
        | .ok false => ScSet.seedLoop checks s (i + 1) elements rest

/-- The template of `iterateExistingElements`. -/
def ScSet.seedTemplate (s : ScSet) : Except String ScTemplate :=
  emptyTemplate.Triple (.scAddr s.Addr)
    (.slice [.scType ⟨ScTypeArcPosVarPerm⟩, .string "_edge"])
    (.slice [.scType ⟨0⟩, .string "_item"])

/-- The method `iterateExistingElements`: the set afterwards and the error
returned, or a panic. `search` is how the `TemplateSearch` call ends and
`initError` is what `OnInitialize` returns. -/
def ScSet.iterateExistingElements (s : ScSet) (search : CallOutcome (List ScTemplateResult))
    (checks : Nat → CallOutcome (List ScType)) (initError : Option String) :
    Except String (ScSet × Option String) :=
  match s.seedTemplate with
  | .error msg => .error msg
  | .ok _ =>
    match TemplateSearchReturn search with
    | (_, some err) => .ok (s, some err)
    | (results, none) =>
      match ScSet.seedLoop checks s 0 [] results with
      | .error msg => .error msg
      | .ok (s1, elements) =>
        .ok ({ s1 with onInitializeCalls := s1.onInitializeCalls ++ [elements] }, initError)

/-- The template of `AddItem`. -/
def ScSet.itemTemplate (s : ScSet) (addr : ScAddr) : Except String ScTemplate :=
  emptyTemplate.Triple (.scAddr s.Addr)
    (.slice [.scType ⟨ScTypeArcPosVarPerm⟩, .string "_edge"]) (.scAddr addr)

/-- The method `AddItem`: the pair returned and the client calls made, in
order, or a panic. `search` and `generate` are how the two client calls
end, the second being looked at only when the call is made. -/
def ScSet.AddItem (s : ScSet) (addr : ScAddr) (search : CallOutcome (List ScTemplateResult))
    (generate : CallOutcome ScTemplateResult) :
    Except String ((Bool × Option String) × List ClientCall) :=
  match s.itemTemplate addr with
  | .error msg => .error msg
  | .ok template =>
    match TemplateSearchReturn search with
    | (_, some err) => .ok ((false, some err), [.templateSearch template])
    | (results, none) =>
      if results.length = 0 then
        match TemplateGenerateReturn generate with
        | (_, some err) =>
          .ok ((false, some err), [.templateSearch template, .templateGenerate template []])
        | (genResult, none) =>
          .ok ((genResult.isSome, none),
            [.templateSearch template, .templateGenerate template []])
      else .ok ((true, none), [.templateSearch template])

/-! ## Sets under the mutex of the client (sc_set.go, sc_client.go)

The pump calls the callback of an event between `c.mu.Lock()` and
`c.mu.Unlock()`. `sendMessage` starts with `c.mu.Lock()`, and a
`sync.Mutex` is not reentrant: a goroutine that holds it and locks it
again waits for ever, no other goroutine unlocking a mutex it has not
locked. `muHeld` says whether the goroutine that makes the call holds
`c.mu`. -/

/-- The method `CheckElements` as called by a goroutine that holds or does
not hold `c.mu`: an empty list returns before any request; otherwise the
method calls `sendMessage`. -/
def CheckElementsUnder (muHeld : Bool) (addrs : List ScAddr)
    (outcome : CallOutcome (List ScType)) : CallEnd (List ScType × Option String) :=
  if addrs.length = 0 then .returned ([], none)
  else if muHeld then .blocked
  else .returned (CheckElements addrs outcome)

/-- The method `shouldAppend` as called by a goroutine that holds or does
not hold `c.mu`. -/
def ScSet.shouldAppendUnder (s : ScSet) (muHeld : Bool) (addrs : List ScAddr)
    (outcome : CallOutcome (List ScType)) : CallEnd (List Bool × Option String) :=
  match s.FilterType with
  | none => .returned (addrs.map (fun _ => true), none)
  | some filter =>
    match CheckElementsUnder muHeld addrs outcome with
    | .blocked => .blocked
    | .panicked msg => .panicked msg
    | .returned (_, some err) => .returned ([], some err)
    | .returned (types, none) =>
      .returned (types.map (fun t => decide (Int.land filter.Value t.Value = filter.Value)),
        none)

/-- The method `onEventAddElement` as called by a goroutine that holds or
does not hold `c.mu`; the pump calls it with the mutex held. -/
def ScSet.onEventAddElementUnder (s : ScSet) (muHeld : Bool)
    (outcome : CallOutcome (List ScType)) (elAddr edge _other : ScAddr) (_eventID : Int) :
    CallEnd ScSet :=
  match mapGet s.Elements edge.Value with
  | some _ => .returned s
  | none =>
    if elAddr.IsValid then
      match s.shouldAppendUnder muHeld [elAddr] outcome with
      | .blocked => .blocked
      | .panicked msg => .panicked msg
      | .returned shouldAppend =>
        match sliceIndex shouldAppend.1 0 with
        | .error msg => .panicked msg
        | .ok true =>
          .returned { s with Elements := mapSet s.Elements edge.Value elAddr,
                             onAddCalls := s.onAddCalls ++ [elAddr] }
        | .ok false => .returned s
    else .returned s

/-- The event callbacks of the pump when the subscriptions are those of the
set `s`: the add handler is called with `c.mu` held and ends as
`onEventAddElementUnder` says; the remove handler makes no client call and
returns. Callbacks of the caller are taken to return. -/
def ScSet.pumpHandlers (s : ScSet) (outcome : CallOutcome (List ScType)) : Handlers :=
  { reply := fun _ _ => none,
    event := fun callback elAddr edge other eventID =>
      match callback with
      | .onEventAddElement =>
        match s.onEventAddElementUnder true outcome elAddr edge other eventID with
        | .returned _ => .returned ()
        | .panicked msg => .panicked msg
        | .blocked => .blocked
      | .onEventRemoveElement => .returned ()
      | .other _ => .returned () }

/-! ## Concrete inputs -/

/-- A search reply with one alias and one match of two addresses. -/
def sampleSearchObject : List (String × GoValue) :=
  [("aliases", .map [("_x", .float64 ⟨1⟩)]),
   ("addrs", .slice [.slice [.float64 ⟨7⟩, .float64 ⟨8⟩]])]

/-- The response record carrying `sampleSearchObject` with a success status. -/
def sampleSearchResponse : Response :=
  { ID := 1, Status := true, Event := false, Payload := .map sampleSearchObject }

/-! ## Reading of the wire records and call sequences -/

/-- Whether a slot value is one `processTripleItem` accepts: an ScAddr, an
ScType or a string. -/
def isTripleItem : GoValue → Bool
  | .scAddr _ => true
  | .scType _ => true
  | .string _ => true
  | _ => false

/-- Whether all three slots of a triple hold an accepted value. -/
def ScTemplateTriple.wellFormed (tr : ScTemplateTriple) : Bool :=
  isTripleItem tr.Source.Value && isTripleItem tr.Edge.Value && isTripleItem tr.Target.Value

/-- The wire form of a slot as the specification words it: `type` and
`value` by the kind of the slot value, and the key `alias` exactly when the
alias of the slot is not empty. -/
def EncodesSlot (item : ScTemplateValue) (record : List (String × GoValue)) : Prop :=
  (match item.Value with
    | .scAddr a => mapGet record "type" = some (.string "addr") ∧
        mapGet record "value" = some (.int64 a.Value)
    | .scType t => mapGet record "type" = some (.string "type") ∧
        mapGet record "value" = some (.int t.Value)
    | .string s => mapGet record "type" = some (.string "alias") ∧
        mapGet record "value" = some (.string s)
    | _ => False) ∧
  mapGet record "alias" = (if item.Alias = "" then none else some (.string item.Alias)) ∧
  ∀ k : String, k ≠ "type" → k ≠ "value" → k ≠ "alias" → mapGet record k = none

/-- One call on a template: `Triple` or `TripleWithRelation`. -/
inductive TemplateCall where
  | triple (p1 p2 p3 : GoValue)
  | tripleWithRelation (p1 p2 p3 p4 p5 : GoValue)

/-- Runs one call on a template. -/
def TemplateCall.run (t : ScTemplate) : TemplateCall → Except String ScTemplate
  | .triple p1 p2 p3 => t.Triple p1 p2 p3
  | .tripleWithRelation p1 p2 p3 p4 p5 => t.TripleWithRelation p1 p2 p3 p4 p5

/-- Runs a sequence of calls on a template, in order; a panic stops it. -/
def runTemplateCalls (t : ScTemplate) : List TemplateCall → Except String ScTemplate
  | [] => .ok t
  | call :: rest =>
    match call.run t with
    | .ok t1 => runTemplateCalls t1 rest
    | .error msg => .error msg

/-- One call on a construction. -/
inductive ConstructionCall where
  | node (t : ScType) (al : String)
  | edge (t : ScType) (src trg : GoValue) (al : String)
  | link (t : ScType) (content : ScLinkContent) (al : String)

/-- The alias argument of a call. -/
def ConstructionCall.aliasArg : ConstructionCall → String
  | .node _ al => al
  | .edge _ _ _ al => al
  | .link _ _ al => al

/-- Runs one call on a construction: the construction afterwards and the
returned error. -/
def ConstructionCall.run (c : ScConstruction) : ConstructionCall → ScConstruction × Option String
  | .node t al => c.CreateNode t al
  | .edge t src trg al => c.CreateEdge t src trg al
  | .link t content al => c.CreateLink t content al

/-- Runs a sequence of calls on a construction, in order, returned errors
being ignored as a caller may do. -/
def runConstructionCalls (c : ScConstruction) : List ConstructionCall → ScConstruction
  | [] => c
  | call :: rest => runConstructionCalls (call.run c).1 rest

/-- A template with one well-formed triple: an address with the alias
`_src`, a type and a named reference. -/
def sampleTemplate : ScTemplate :=
  { Triples := [{ Source := { Value := .scAddr ⟨10⟩, Alias := "_src" },
                  Edge := { Value := .scType ⟨2256⟩, Alias := "" },
                  Target := { Value := .string "_src", Alias := "" } }] }

/-- A template whose only triple has an int in its edge slot. -/
def malformedTemplate : ScTemplate :=
  { Triples := [{ Source := { Value := .scAddr ⟨10⟩, Alias := "" },
                  Edge := { Value := .int 5, Alias := "" },
                  Target := { Value := .scAddr ⟨11⟩, Alias := "" } }] }

/-- A client with an open connection and nothing pending. -/
def idleClient : ScClient :=
  { connected := true, messageQueue := [], callbacks := [], events := [], eventID := 0,
    written := [] }

/-- The digits `formatDecimal` prints, as numbers, most significant first. -/
def decimalDigitsOf (n : Nat) : List Nat :=
  if n = 0 then [0] else (Nat.digits 10 n).reverse

/-- The template that `TripleWithRelation` makes from the empty one for the
parameters (address 1, type 2256, address 3, type 2256, address 5). -/
def relationTemplate : ScTemplate :=
  { Triples := [
      { Source := { Value := .scAddr ⟨1⟩, Alias := "" },
        Edge := { Value := .templateValue (.scType ⟨2256⟩) "edge_1_0", Alias := "" },
        Target := { Value := .scAddr ⟨3⟩, Alias := "" } },
      { Source := { Value := .scAddr ⟨5⟩, Alias := "" },
        Edge := { Value := .scType ⟨2256⟩, Alias := "" },
        Target := { Value := .string "edge_1_0", Alias := "" } }] }

/-- The template `relationTemplate` after a second `TripleWithRelation` call
with the same parameters. -/
def relationTemplateTwice : ScTemplate :=
  { Triples := relationTemplate.Triples ++ [
      { Source := { Value := .scAddr ⟨1⟩, Alias := "" },
        Edge := { Value := .templateValue (.scType ⟨2256⟩) ("edge_1_" ++ formatDecimal 2),
                  Alias := "" },
        Target := { Value := .scAddr ⟨3⟩, Alias := "" } },
      { Source := { Value := .scAddr ⟨5⟩, Alias := "" },
        Edge := { Value := .scType ⟨2256⟩, Alias := "" },
        Target := { Value := .string ("edge_1_" ++ formatDecimal 2), Alias := "" } }] }

/-- Whether a call passes the kind check of its method. -/
def ConstructionCall.accepted : ConstructionCall → Bool
  | .node t _ => t.IsNode
  | .edge t _ _ _ => t.IsEdge
  | .link t _ _ => t.IsLink

/-- The empty construction (the zero value of the struct). -/
def emptyConstruction : ScConstruction := { Commands := [], Aliases := none }

/-- A construction with one node bound to the alias `n`. -/
def oneNodeConstruction : ScConstruction :=
  { Commands := [{ Typ := ⟨33⟩, Data := .nil }], Aliases := some [("n", 0)] }

/-- The construction left by `CreateEdge` on the empty construction with
the mask 17 (node bit and access-edge bit), the unbound name `missing` as
source and an address as target. -/
def mixedKindConstruction : ScConstruction :=
  (emptyConstruction.CreateEdge ⟨17⟩ (.string "missing") (.scAddr ⟨1⟩) "").1

/-- An edge from the name `n` added before the node that binds `n`. -/
def forwardRefConstruction : ScConstruction :=
  runConstructionCalls emptyConstruction
    [.edge ⟨2256⟩ (.string "n") (.scAddr ⟨4⟩) "", .node ⟨33⟩ "n"]

/-- An edge whose source is the name `ghost`, bound by no command. -/
def unboundRefConstruction : ScConstruction :=
  runConstructionCalls emptyConstruction
    [.node ⟨33⟩ "n", .edge ⟨2256⟩ (.string "ghost") (.string "n") ""]

/-- A client holding the subscriptions 5 and 6 of an ScSet. -/
def subscribedClient : ScClient :=
  { connected := true, messageQueue := [], callbacks := [],
    events := [(5, ⟨5, "add_outgoing_edge", .onEventAddElement⟩),
               (6, ⟨6, "remove_outgoing_edge", .onEventRemoveElement⟩)],
    eventID := 2, written := [] }

/-- Handlers that always return. -/
def quietHandlers : Handlers :=
  { reply := fun _ _ => none, event := fun _ _ _ _ _ => .returned () }

/-- A client with one pending template search under the id 1. -/
def pendingClient : ScClient :=
  { connected := true, messageQueue := [], callbacks := [(1, .templateSearch)], events := [],
    eventID := 1, written := [] }

/-- A success reply to the request 1. -/
def replyOne : Response :=
  { ID := 1, Status := true, Event := false, Payload := .nil }

/-- A set without a type filter and with no member yet. -/
def plainSet : ScSet :=
  { Addr := ⟨100⟩, Elements := [], FilterType := none, onAddCalls := [], onRemoveCalls := [],
    onInitializeCalls := [] }

/-- A set filtering on the mask 33 (constant node) that holds the member 7
under the edge 40. -/
def filteredSet : ScSet :=
  { Addr := ⟨100⟩, Elements := [(40, ⟨7⟩)], FilterType := some ⟨33⟩, onAddCalls := [⟨7⟩],
    onRemoveCalls := [], onInitializeCalls := [] }

/-- A search result binding the edge 41 and the item 8. -/
def sampleMatch : ScTemplateResult :=
  { Addrs := [⟨100⟩, ⟨41⟩, ⟨8⟩], Indices := [("_edge", 1), ("_item", 2)] }

/-- The command an accepted call appends. -/
def ConstructionCall.command : ConstructionCall → ScConstructionCommand
  | .node t _ => { Typ := t, Data := .nil }
  | .edge t src trg _ => { Typ := t, Data := .map [("src", src), ("trg", trg)] }
  | .link t content _ =>
    { Typ := t, Data := .map [("content", content.Data),
        ("type", .linkContentType content.Typ)] }

/-- The value of `el` that belongs to the method of a call. -/
def ConstructionCall.kindName : ConstructionCall → String
  | .node _ _ => "node"
  | .edge _ _ _ _ => "edge"
  | .link _ _ _ => "link"

/-- Whether the mask of a call reaches, in the dispatch of `CreateElements`
(node, then edge, then link), the branch of its own method: an edge mask
without the node bit, a link mask without node and edge bits. -/
def ConstructionCall.dispatchAgrees : ConstructionCall → Bool
  | .node _ _ => true
  | .edge t _ _ _ => !t.IsNode
  | .link t _ _ => !t.IsNode && !t.IsEdge

/-- Whether `transformEdgeInfo` accepts an endpoint: an address, or a name
that `GetIndex` finds. -/
def endpointResolves (c : ScConstruction) : GoValue → Bool
  | .scAddr _ => true
  | .string s => (c.GetIndex s).2
  | _ => false

/-- Whether the endpoints of a call, if it is an edge call, are accepted
by `transformEdgeInfo`. -/
def ConstructionCall.endpointsResolve (c : ScConstruction) : ConstructionCall → Bool
  | .edge _ src trg _ => endpointResolves c src && endpointResolves c trg
  | _ => true

/-- A node, a link and an edge between them, by alias and by address. -/
def sampleCalls : List ConstructionCall :=
  [.node ⟨33⟩ "n", .link ⟨34⟩ ⟨.string "text", 2, none⟩ "", .edge ⟨2256⟩ (.string "n")
    (.scAddr ⟨4⟩) "e"]

/-- The two subscriptions an ScSet at the address 100 asks for in
`Initialize`. -/
def setEventParams : List ScEventParams :=
  [⟨⟨100⟩, "add_outgoing_edge", .onEventAddElement⟩,
   ⟨⟨100⟩, "remove_outgoing_edge", .onEventRemoveElement⟩]

/-- A client with the `EventsCreate` request of that set pending under the
id 3 and a template search pending under the id 2. -/
def creatingClient : ScClient :=
  { connected := true, messageQueue := [],
    callbacks := [(3, .eventsCreate setEventParams), (2, .templateSearch)], events := [],
    eventID := 3, written := [] }

/-- A success reply to the request 3 that carries the subscription ids 5
and 6. -/
def replyThree : Response :=
  { ID := 3, Status := true, Event := false, Payload := .slice [.float64 ⟨5⟩, .float64 ⟨6⟩] }

/-- The push of the subscription 5: the element 9, the edge 41, the other
endpoint 8. -/
def addPush : Response :=
  { ID := 5, Status := true, Event := true,
    Payload := .slice [.float64 ⟨9⟩, .float64 ⟨41⟩, .float64 ⟨8⟩] }

/-! ## Lemmas on maps and decoding -/

theorem mapGet_filter_ne {K V : Type} [DecidableEq K] (m : List (K × V)) (k a : K) :
    mapGet (m.filter (fun p => !decide (p.1 = k))) a = if a = k then none else mapGet m a := by
  induction m with
  | nil => simp [mapGet]
  | cons hd tl ih =>
    obtain ⟨k1, v⟩ := hd
    by_cases h1 : k1 = k
    · subst h1
      by_cases h2 : a = k1
      · subst h2; simp [ih]
      · have h3 : ¬ k1 = a := fun h => h2 h.symm
        simp [ih, mapGet, h2, h3]
    · by_cases h2 : k1 = a
      · subst h2; simp [List.filter_cons, h1, mapGet]
      · simp [List.filter_cons, h1, mapGet, h2, ih]

theorem mapGet_mapSet {K V : Type} [DecidableEq K] (m : List (K × V)) (k a : K) (v : V) :
    mapGet (mapSet m k v) a = if k = a then some v else mapGet m a := by
  unfold mapSet
  by_cases h : k = a
  · simp [mapGet, h]
  · have h2 : ¬ a = k := fun e => h e.symm
    simp [mapGet, h, mapGet_filter_ne, h2]

theorem mapGet_eq_none_of_not_mem {K V : Type} [DecidableEq K] (m : List (K × V)) (a : K)
    (h : a ∉ m.map Prod.fst) : mapGet m a = none := by
  induction m with
  | nil => simp [mapGet]
  | cons hd tl ih =>
    obtain ⟨k1, v⟩ := hd
    simp only [List.map_cons, List.mem_cons, not_or] at h
    have h1 : ¬ k1 = a := fun e => h.1 e.symm
    simp [mapGet, h1, ih h.2]

theorem decodeAddrs_floats (l : List Float64) :
    decodeAddrs (l.map GoValue.float64) = .ok (l.map fun f => ({ Value := f.toInt } : ScAddr)) := by
  unfold decodeAddrs
  induction l with
  | nil => rfl
  | cons f tl ih =>
    simp only [List.map_cons, List.mapM_cons]
    rw [ih]
    rfl

theorem decodeAliasIndices_foldl (A : List (String × Float64)) (acc : List (String × Int)) :
    List.foldlM (fun aliasIndices (p : String × GoValue) => do
      let index ← asFloat64 p.2
      pure (mapSet aliasIndices p.1 index.toInt)) acc
      (A.map fun p => (p.1, GoValue.float64 p.2))
    = (.ok (A.foldl (fun m p => mapSet m p.1 p.2.toInt) acc) : Except String _) := by
  induction A generalizing acc with
  | nil => rfl
  | cons hd tl ih =>
    simp only [List.map_cons, List.foldlM_cons, List.foldl_cons]
    rw [← ih]
    rfl

theorem mapGet_foldl_mapSet (A : List (String × Float64)) (acc : List (String × Int)) (a : String)
    (hA : (A.map Prod.fst).Nodup) :
    mapGet (A.foldl (fun m p => mapSet m p.1 p.2.toInt) acc) a =
      match mapGet A a with
      | some f => some f.toInt
      | none => mapGet acc a := by
  induction A generalizing acc with
  | nil => simp [mapGet]
  | cons hd tl ih =>
    obtain ⟨k, f⟩ := hd
    simp only [List.map_cons, List.nodup_cons] at hA
    simp only [List.foldl_cons]
    rw [ih _ hA.2]
    by_cases h : k = a
    · subst h
      simp [mapGet, mapGet_eq_none_of_not_mem tl k hA.1, mapGet_mapSet]
    · rw [mapGet_mapSet]
      simp [mapGet, h]

theorem ok_bind {ε α β : Type} (x : α) (f : α → Except ε β) :
    (Except.ok x >>= f) = f x := rfl

theorem asMap_map (kvs : List (String × GoValue)) : asMap (.map kvs) = .ok kvs := rfl

theorem asSlice_slice (xs : List GoValue) : asSlice (.slice xs) = .ok xs := rfl

theorem asFloat64_float64 (f : Float64) : asFloat64 (.float64 f) = .ok f := rfl

theorem decodeAliasIndices_floats (A : List (String × Float64)) :
    decodeAliasIndices (A.map fun p => (p.1, GoValue.float64 p.2)) =
      .ok (A.foldl (fun m p => mapSet m p.1 p.2.toInt) []) :=
  decodeAliasIndices_foldl A []

theorem decodeMatches_floats (aliases : List (String × GoValue)) (idx : List (String × Int))
    (h : decodeAliasIndices aliases = .ok idx) (lists : List (List Float64)) :
    (lists.map fun l => GoValue.slice (l.map GoValue.float64)).mapM (fun addrList => do
      let addrValues ← asSlice addrList
      let addrs ← decodeAddrs addrValues
      let aliasIndices ← decodeAliasIndices aliases
      pure ({ Addrs := addrs, Indices := aliasIndices } : ScTemplateResult))
    = (.ok (lists.map fun l =>
        ({ Addrs := l.map fun f => ({ Value := f.toInt } : ScAddr), Indices := idx } :
          ScTemplateResult)) : Except String _) := by
  induction lists with
  | nil => rfl
  | cons l tl ih =>
    simp only [List.map_cons, List.mapM_cons]
    rw [ih]
    simp only [asSlice_slice, ok_bind, decodeAddrs_floats, h]
    rfl

theorem templateSearchReply_floats (response : Response) (obj : List (String × GoValue))
    (A : List (String × Float64)) (lists : List (List Float64))
    (hs : response.Status = true) (hp : response.Payload = .map obj)
    (ha : mapIndex obj "aliases" = .map (A.map fun p => (p.1, GoValue.float64 p.2)))
    (hl : mapIndex obj "addrs" = .slice (lists.map fun l => GoValue.slice (l.map GoValue.float64))) :
    templateSearchReply response = .ok (some (lists.map fun l =>
      ({ Addrs := l.map fun f => ({ Value := f.toInt } : ScAddr),
         Indices := A.foldl (fun m p => mapSet m p.1 p.2.toInt) [] } : ScTemplateResult))) := by
  unfold templateSearchReply
  simp only [hs, hp, ha, hl, asMap_map, asSlice_slice, ok_bind, Bool.not_true,
    Bool.false_eq_true, if_false]
  rw [decodeMatches_floats _ _ (decodeAliasIndices_floats A) lists]
  rfl

theorem sliceIndex_of_lt {α : Type} (xs : List α) (i : Int) (h0 : 0 ≤ i)
    (h1 : i < xs.length) : ∃ x, xs[i.toNat]? = some x ∧ sliceIndex xs i = .ok x := by
  have hlt : i.toNat < xs.length := by omega
  refine ⟨xs[i.toNat], by simp [hlt], ?_⟩
  simp [sliceIndex, h0, List.get?_eq_getElem?, hlt]

/-! ## Template search replies -/

theorem templateSearchReply_records (response : Response) (obj : List (String × GoValue))
    (A : List (String × Float64)) (lists : List (List Float64))
    (hs : response.Status = true) (hp : response.Payload = .map obj)
    (ha : mapIndex obj "aliases" = .map (A.map fun p => (p.1, GoValue.float64 p.2)))
    (hl : mapIndex obj "addrs" = .slice (lists.map fun l => GoValue.slice (l.map GoValue.float64)))
    (hA : (A.map Prod.fst).Nodup) :
    ∃ results : List ScTemplateResult, templateSearchReply response = .ok (some results) ∧
      results.length = lists.length ∧
      ∀ (i : Nat) (l : List Float64), lists[i]? = some l → ∃ r : ScTemplateResult, results[i]? = some r ∧
        r.Addrs = l.map (fun f => ({ Value := f.toInt } : ScAddr)) ∧
        (∀ a : String, mapGet r.Indices a = (mapGet A a).map Float64.toInt) ∧
        ∀ (a : String) (k : Float64), mapGet A a = some k → 0 ≤ k.toInt → k.toInt < l.length →
          ∃ f : Float64, l[k.toInt.toNat]? = some f ∧
            r.Get (.string a) = .ok { Value := f.toInt } ∧
            r.Get (.int k.toInt) = .ok { Value := f.toInt } := by
  refine ⟨_, templateSearchReply_floats response obj A lists hs hp ha hl, by simp, ?_⟩
  intro i l hil
  have hidx : ∀ a, mapGet (A.foldl (fun m p => mapSet m p.1 p.2.toInt) []) a =
      (mapGet A a).map Float64.toInt := by
    intro a
    rw [mapGet_foldl_mapSet A [] a hA]
    cases mapGet A a <;> simp [mapGet]
  refine ⟨{ Addrs := l.map fun f => ({ Value := f.toInt } : ScAddr),
            Indices := A.foldl (fun m p => mapSet m p.1 p.2.toInt) [] },
    by simp [List.getElem?_map, hil], rfl, hidx, ?_⟩
  intro a k hk h0 h1
  have h1m : k.toInt < ((l.map (fun f => ({ Value := f.toInt } : ScAddr))).length : Int) := by
    simpa using h1
  obtain ⟨x, hx, hs2⟩ := sliceIndex_of_lt (l.map (fun f => ({ Value := f.toInt } : ScAddr)))
    k.toInt h0 h1m
  have hlt : k.toInt.toNat < l.length := by omega
  refine ⟨l[k.toInt.toNat], by simp [hlt], ?_, ?_⟩
  · simp only [ScTemplateResult.Get, hidx, hk, Option.map_some', Option.getD_some]
    rw [hs2]
    simp [List.getElem?_map, hlt] at hx
    rw [hx]
  · simp only [ScTemplateResult.Get]
    rw [hs2]
    simp [List.getElem?_map, hlt] at hx
    rw [hx]

theorem toInt_of_fits (f : Float64) (h : f.fitsInt64 = true) :
    f.toInt = Int.tdiv f.toRat.num f.toRat.den := by
  simp only [Float64.toInt, h, if_true]

theorem mapGet_mem {K V : Type} [DecidableEq K] (m : List (K × V)) (a : K) (v : V)
    (h : mapGet m a = some v) : (a, v) ∈ m := by
  induction m with
  | nil => simp [mapGet] at h
  | cons hd tl ih =>
    obtain ⟨k1, v1⟩ := hd
    simp only [mapGet] at h
    split at h
    · rename_i hk
      cases h
      subst hk
      exact List.mem_cons_self _ _
    · exact List.mem_cons_of_mem _ (ih h)

/-- C1: decoding a successful template-search reply that carries the alias
table `A` and the address lists `lists`, all numbers of which are in the
int64 range, yields one record per list, in order; record `i` holds list
`i` with every number truncated toward zero, element by element, and an
alias table that reads like `A` with its offsets truncated; for an alias
whose offset is inside the list, `Get` by alias and `Get` by offset agree
and return the address at that offset. -/
theorem templateSearchReply_decodes (response : Response) (obj : List (String × GoValue))
    (A : List (String × Float64)) (lists : List (List Float64))
    (hs : response.Status = true) (hp : response.Payload = .map obj)
    (ha : mapIndex obj "aliases" = .map (A.map fun p => (p.1, GoValue.float64 p.2)))
    (hl : mapIndex obj "addrs" = .slice (lists.map fun l => GoValue.slice (l.map GoValue.float64)))
    (hA : (A.map Prod.fst).Nodup)
    (hfitA : ∀ p ∈ A, p.2.fitsInt64 = true)
    (hfitL : ∀ l ∈ lists, ∀ f ∈ l, f.fitsInt64 = true) :
    ∃ results : List ScTemplateResult, templateSearchReply response = .ok (some results) ∧
      results.length = lists.length ∧
      ∀ (i : Nat) (l : List Float64), lists[i]? = some l →
        ∃ r : ScTemplateResult, results[i]? = some r ∧
        r.Addrs = l.map (fun f => ({ Value := Int.tdiv f.toRat.num f.toRat.den } : ScAddr)) ∧
        (∀ a : String, mapGet r.Indices a =
          (mapGet A a).map (fun k => Int.tdiv k.toRat.num k.toRat.den)) ∧
        ∀ (a : String) (k : Float64), mapGet A a = some k →
          0 ≤ Int.tdiv k.toRat.num k.toRat.den →
          Int.tdiv k.toRat.num k.toRat.den < l.length →
          ∃ f : Float64, l[(Int.tdiv k.toRat.num k.toRat.den).toNat]? = some f ∧
            r.Get (.string a) = .ok { Value := Int.tdiv f.toRat.num f.toRat.den } ∧
            r.Get (.int (Int.tdiv k.toRat.num k.toRat.den)) =
              .ok { Value := Int.tdiv f.toRat.num f.toRat.den } := by
  obtain ⟨results, hres, hlen, hall⟩ :=
    templateSearchReply_records response obj A lists hs hp ha hl hA
  refine ⟨results, hres, hlen, ?_⟩
  intro i l hil
  obtain ⟨r, hr, haddrs, hidx, hget⟩ := hall i l hil
  have hlmem : l ∈ lists := List.getElem?_mem hil
  refine ⟨r, hr, ?_, ?_, ?_⟩
  · rw [haddrs]
    apply List.map_congr_left
    intro f hf
    rw [toInt_of_fits f (hfitL l hlmem f hf)]
  · intro a
    rw [hidx a]
    cases hk : mapGet A a with
    | none => rfl
    | some k =>
      simp only [Option.map_some']
      rw [toInt_of_fits k (hfitA (a, k) (mapGet_mem A a k hk))]
  · intro a k hk h0 h1
    have hkk := toInt_of_fits k (hfitA (a, k) (mapGet_mem A a k hk))
    rw [← hkk] at h0 h1 ⊢
    obtain ⟨f, hf, hg1, hg2⟩ := hget a k hk h0 h1
    have hff := toInt_of_fits f (hfitL l hlmem f (List.getElem?_mem hf))
    refine ⟨f, hf, ?_, ?_⟩
    · rw [hg1, hff]
    · rw [hg2, hff]

/-- Witness of C1 on `sampleSearchResponse`: the reply with the alias `_x`
at offset 1 and the one match (7, 8) decodes to one record with the
addresses 7 and 8, in which `_x` and the offset 1 both give the address 8. -/
theorem templateSearchReply_decodes_witness :
    (∃ results : List ScTemplateResult,
      templateSearchReply sampleSearchResponse = .ok (some results) ∧
      results.length = [[(⟨7⟩ : Float64), ⟨8⟩]].length) ∧
    templateSearchReply sampleSearchResponse =
      .ok (some [{ Addrs := [⟨7⟩, ⟨8⟩], Indices := [("_x", 1)] }]) ∧
    ScTemplateResult.Get { Addrs := [⟨7⟩, ⟨8⟩], Indices := [("_x", 1)] } (.string "_x") =
      .ok ⟨8⟩ ∧
    ScTemplateResult.Get { Addrs := [⟨7⟩, ⟨8⟩], Indices := [("_x", 1)] } (.int 1) = .ok ⟨8⟩ :=
  ⟨(templateSearchReply_decodes sampleSearchResponse sampleSearchObject
      [("_x", ⟨1⟩)] [[⟨7⟩, ⟨8⟩]] rfl rfl rfl rfl (by decide) (by decide) (by decide)).elim
      (fun results h => ⟨results, h.1, h.2.1⟩),
   rfl, rfl, rfl⟩

/-! ## Template results: Get -/

/-- C2 (the code at the failing input): on a result whose alias table is
empty, `Get` of the alias `x` does not fail; it returns the first address. -/
theorem Get_absent_alias_returns_first :
    mapGet ([] : List (String × Int)) "x" = none ∧
    ScTemplateResult.Get { Addrs := [⟨7⟩, ⟨8⟩], Indices := [] } (.string "x") = .ok ⟨7⟩ := by
  constructor <;> rfl

/-! ## Template payload -/

theorem processTripleItem_encodes (item : ScTemplateValue) (h : isTripleItem item.Value = true) :
    ∃ record, processTripleItem item = .ok record ∧ EncodesSlot item record := by
  obtain ⟨v, al⟩ := item
  cases v <;> simp only [isTripleItem, Bool.false_eq_true] at h
  all_goals
    refine ⟨_, rfl, ?_⟩
    by_cases hal : al = ""
    · subst hal
      refine ⟨?_, ?_, ?_⟩
      · simp [mapGet_mapSet, mapGet]
      · simp [mapGet_mapSet, mapGet]
      · intro k h1 h2 h3
        simp [mapGet_mapSet, mapGet, Ne.symm h1, Ne.symm h2]
    · refine ⟨?_, ?_, ?_⟩
      · simp [mapGet_mapSet, mapGet, hal]
      · simp [mapGet_mapSet, mapGet, hal]
      · intro k h1 h2 h3
        simp [mapGet_mapSet, mapGet, hal, Ne.symm h1, Ne.symm h2, Ne.symm h3]

theorem processTripleItem_error (item : ScTemplateValue) (h : isTripleItem item.Value = false) :
    processTripleItem item = .error "invalid triple item type" := by
  obtain ⟨v, al⟩ := item
  cases v <;> simp only [isTripleItem, Bool.true_eq_false] at h <;> rfl

/-- The relation between a triple and its wire entry. -/
theorem encodeTriples_forall₂ (triples : List ScTemplateTriple)
    (h : ∀ tr ∈ triples, tr.wellFormed = true) :
    ∃ payload : List GoValue,
      triples.mapM (fun triple => do
        let s ← processTripleItem triple.Source
        let e ← processTripleItem triple.Edge
        let g ← processTripleItem triple.Target
        pure (GoValue.slice [.map s, .map e, .map g])) = (.ok payload : Except String _) ∧
      List.Forall₂ (fun tr v => ∃ s e g, v = GoValue.slice [.map s, .map e, .map g] ∧
        EncodesSlot tr.Source s ∧ EncodesSlot tr.Edge e ∧ EncodesSlot tr.Target g)
        triples payload := by
  induction triples with
  | nil => exact ⟨[], rfl, List.Forall₂.nil⟩
  | cons tr tl ih =>
    obtain ⟨payload, hp, hrel⟩ := ih (fun x hx => h x (List.mem_cons_of_mem _ hx))
    have hwf := h tr (List.mem_cons_self _ _)
    simp only [ScTemplateTriple.wellFormed, Bool.and_eq_true] at hwf
    obtain ⟨s, hs, hs2⟩ := processTripleItem_encodes tr.Source hwf.1.1
    obtain ⟨e, he, he2⟩ := processTripleItem_encodes tr.Edge hwf.1.2
    obtain ⟨g, hg, hg2⟩ := processTripleItem_encodes tr.Target hwf.2
    refine ⟨GoValue.slice [.map s, .map e, .map g] :: payload, ?_,
      List.Forall₂.cons ⟨s, e, g, rfl, hs2, he2, hg2⟩ hrel⟩
    simp only [List.mapM_cons]
    rw [hp, hs, he, hg]
    rfl

theorem Triple_appends (t : ScTemplate) (p1 p2 p3 : GoValue) (t1 : ScTemplate)
    (h : t.Triple p1 p2 p3 = .ok t1) :
    ∃ s1 s2 s3, splitTemplateParam p1 = .ok s1 ∧ splitTemplateParam p2 = .ok s2 ∧
      splitTemplateParam p3 = .ok s3 ∧
      t1.Triples = t.Triples ++ [{ Source := s1, Edge := s2, Target := s3 }] := by
  unfold ScTemplate.Triple at h
  cases h1 : splitTemplateParam p1 with
  | error e => rw [h1] at h; cases h
  | ok s1 =>
    cases h2 : splitTemplateParam p2 with
    | error e => rw [h1, h2] at h; cases h
    | ok s2 =>
      cases h3 : splitTemplateParam p3 with
      | error e => rw [h1, h2, h3] at h; cases h
      | ok s3 =>
        rw [h1, h2, h3] at h
        refine ⟨s1, s2, s3, rfl, rfl, rfl, ?_⟩
        cases h
        rfl

/-- C3: for a template whose slots all hold an ScAddr, an ScType or a
string, `prepareTemplatePayload` returns one 3-element entry per triple, in
the order of the triples, entry `i` being the records of source, edge and
target of triple `i`, each encoded by the kind of its value with the key
`alias` present exactly for a non-empty alias; and `Triple` only appends at
the end. -/
theorem prepareTemplatePayload_encodes (t : ScTemplate)
    (h : ∀ tr ∈ t.Triples, tr.wellFormed = true) :
    (∃ payload : List GoValue, prepareTemplatePayload t = .ok payload ∧
      payload.length = t.Triples.length ∧
      ∀ (i : Nat) (tr : ScTemplateTriple), t.Triples[i]? = some tr →
        ∃ s e g, payload[i]? = some (GoValue.slice [.map s, .map e, .map g]) ∧
          EncodesSlot tr.Source s ∧ EncodesSlot tr.Edge e ∧ EncodesSlot tr.Target g) ∧
    ∀ (p1 p2 p3 : GoValue) (t1 : ScTemplate), t.Triple p1 p2 p3 = .ok t1 →
      ∃ s1 s2 s3, splitTemplateParam p1 = .ok s1 ∧ splitTemplateParam p2 = .ok s2 ∧
        splitTemplateParam p3 = .ok s3 ∧
        t1.Triples = t.Triples ++ [{ Source := s1, Edge := s2, Target := s3 }] := by
  refine ⟨?_, fun p1 p2 p3 t1 h1 => Triple_appends t p1 p2 p3 t1 h1⟩
  obtain ⟨payload, hp, hrel⟩ := encodeTriples_forall₂ t.Triples h
  refine ⟨payload, hp, hrel.length_eq.symm, ?_⟩
  intro i tr hi
  have hlt : i < t.Triples.length := by
    rcases Nat.lt_or_ge i t.Triples.length with h1 | h1
    · exact h1
    · rw [List.getElem?_eq_none h1] at hi; cases hi
  have hlt2 : i < payload.length := by rw [← hrel.length_eq]; exact hlt
  obtain ⟨s, e, g, hv, hs, he, hg⟩ := hrel.get hlt hlt2
  have htr : t.Triples.get ⟨i, hlt⟩ = tr := by
    rw [List.getElem?_eq_getElem hlt] at hi
    exact Option.some.inj hi
  rw [htr] at hs he hg
  refine ⟨s, e, g, ?_, hs, he, hg⟩
  rw [List.getElem?_eq_getElem hlt2]
  exact congrArg some hv

/-- Witness of C3 on `sampleTemplate`. -/
theorem prepareTemplatePayload_encodes_witness :
    (∃ payload : List GoValue, prepareTemplatePayload sampleTemplate = .ok payload ∧
      payload.length = sampleTemplate.Triples.length ∧
      ∀ (i : Nat) (tr : ScTemplateTriple), sampleTemplate.Triples[i]? = some tr →
        ∃ s e g, payload[i]? = some (GoValue.slice [.map s, .map e, .map g]) ∧
          EncodesSlot tr.Source s ∧ EncodesSlot tr.Edge e ∧ EncodesSlot tr.Target g) ∧
    ∀ (p1 p2 p3 : GoValue) (t1 : ScTemplate), sampleTemplate.Triple p1 p2 p3 = .ok t1 →
      ∃ s1 s2 s3, splitTemplateParam p1 = .ok s1 ∧ splitTemplateParam p2 = .ok s2 ∧
        splitTemplateParam p3 = .ok s3 ∧
        t1.Triples = sampleTemplate.Triples ++ [{ Source := s1, Edge := s2, Target := s3 }] :=
  prepareTemplatePayload_encodes sampleTemplate (by simp [sampleTemplate, ScTemplateTriple.wellFormed, isTripleItem])

theorem mapM_error_of_mem {α β : Type} (f : α → Except String β) (l : List α) (x : α)
    (hx : x ∈ l) (e : String) (hfx : f x = .error e) : ∃ msg, l.mapM f = .error msg := by
  induction l with
  | nil => cases hx
  | cons a tl ih =>
    simp only [List.mapM_cons]
    cases hfa : f a with
    | error e1 => exact ⟨e1, rfl⟩
    | ok b =>
      rcases List.mem_cons.mp hx with h1 | h1
      · subst h1; rw [hfa] at hfx; cases hfx
      · obtain ⟨msg, hmsg⟩ := ih h1
        rw [hmsg]
        exact ⟨msg, rfl⟩

theorem encodeTriple_error (tr : ScTemplateTriple) (h : tr.wellFormed = false) :
    (do
      let s ← processTripleItem tr.Source
      let e ← processTripleItem tr.Edge
      let g ← processTripleItem tr.Target
      pure (GoValue.slice [.map s, .map e, .map g])) =
      (.error "invalid triple item type" : Except String GoValue) := by
  cases h1 : isTripleItem tr.Source.Value with
  | false => rw [processTripleItem_error _ h1]; rfl
  | true =>
    obtain ⟨s, hs, _⟩ := processTripleItem_encodes _ h1
    cases h2 : isTripleItem tr.Edge.Value with
    | false => rw [hs, processTripleItem_error _ h2]; rfl
    | true =>
      obtain ⟨e, he, _⟩ := processTripleItem_encodes _ h2
      cases h3 : isTripleItem tr.Target.Value with
      | false => rw [hs, he, processTripleItem_error _ h3]; rfl
      | true => simp [ScTemplateTriple.wellFormed, h1, h2, h3] at h

/-- C4: encoding a template fails exactly when some slot of some triple
holds a value that is neither an ScAddr, an ScType nor a string; when it
fails, `TemplateSearch` and `TemplateGenerate` end with that panic and the
client is as before: no id taken, no callback stored, nothing written or
queued. When it succeeds both go on to `sendMessage`. -/
theorem prepareTemplatePayload_fails_iff (t : ScTemplate) :
    ((∃ msg, prepareTemplatePayload t = .error msg) ↔
      ∃ tr ∈ t.Triples, tr.wellFormed = false) ∧
    (∀ (c : ScClient) (env : SendEnv) (msg : String), prepareTemplatePayload t = .error msg →
      c.TemplateSearch env t = (c, some msg) ∧
      ∀ params, c.TemplateGenerate env t params = (c, some msg)) ∧
    ∀ (c : ScClient) (env : SendEnv) (payload : List GoValue),
      prepareTemplatePayload t = .ok payload →
      c.TemplateSearch env t =
        (c.sendMessage env "search_template" (.slice payload) .templateSearch, none) := by
  refine ⟨⟨?_, ?_⟩, ?_, ?_⟩
  · rintro ⟨msg, hmsg⟩
    by_contra hno
    have hall : ∀ tr ∈ t.Triples, tr.wellFormed = true := by
      intro tr htr
      cases hw : tr.wellFormed with
      | true => rfl
      | false => exact absurd ⟨tr, htr, hw⟩ hno
    obtain ⟨payload, hp, _⟩ := encodeTriples_forall₂ t.Triples hall
    have hp2 : prepareTemplatePayload t = .ok payload := hp
    rw [hp2] at hmsg
    cases hmsg
  · rintro ⟨tr, htr, hw⟩
    exact mapM_error_of_mem _ t.Triples tr htr _ (encodeTriple_error tr hw)
  · intro c env msg hmsg
    constructor
    · simp only [ScClient.TemplateSearch, hmsg]
    · intro params
      simp only [ScClient.TemplateGenerate, hmsg]
  · intro c env payload hp
    simp only [ScClient.TemplateSearch, hp]

/-- Witness of C4 on `malformedTemplate`: the encoding fails and the search
leaves `idleClient` untouched. -/
theorem prepareTemplatePayload_fails_iff_witness :
    (∃ tr ∈ malformedTemplate.Triples, tr.wellFormed = false) ∧
    prepareTemplatePayload malformedTemplate = .error "invalid triple item type" ∧
    idleClient.TemplateSearch ⟨true, true⟩ malformedTemplate =
      (idleClient, some "invalid triple item type") :=
  ⟨((prepareTemplatePayload_fails_iff malformedTemplate).1.mp ⟨_, rfl⟩),
   rfl,
   ((prepareTemplatePayload_fails_iff malformedTemplate).2.1 idleClient ⟨true, true⟩
      "invalid triple item type" rfl).1⟩

/-! ## TripleWithRelation -/

theorem formatDecimal_eq (n : Nat) :
    formatDecimal n = String.mk ((decimalDigitsOf n).map Nat.digitChar) := by
  unfold formatDecimal decimalDigitsOf
  split <;> rfl

theorem decimalDigitsOf_lt (n d : Nat) (h : d ∈ decimalDigitsOf n) : d < 10 := by
  unfold decimalDigitsOf at h
  split at h
  · simp at h; omega
  · exact Nat.digits_lt_base (by norm_num) (List.mem_reverse.mp h)

theorem ofDigits_decimalDigitsOf (n : Nat) :
    Nat.ofDigits 10 (decimalDigitsOf n).reverse = n := by
  unfold decimalDigitsOf
  split
  · subst_vars; simp
  · simp [Nat.ofDigits_digits]

theorem digitChar_toNat (d : Nat) (h : d < 10) : (Nat.digitChar d).toNat - 48 = d := by
  interval_cases d <;> rfl

theorem formatDecimal_injective (n m : Nat) (h : formatDecimal n = formatDecimal m) : n = m := by
  rw [formatDecimal_eq, formatDecimal_eq] at h
  have h1 : (decimalDigitsOf n).map Nat.digitChar = (decimalDigitsOf m).map Nat.digitChar := by
    injection h
  have h2 := congrArg (List.map (fun c : Char => c.toNat - 48)) h1
  simp only [List.map_map] at h2
  have hid : ∀ k : Nat, (decimalDigitsOf k).map ((fun c : Char => c.toNat - 48) ∘ Nat.digitChar)
      = decimalDigitsOf k := by
    intro k
    conv_rhs => rw [← List.map_id (decimalDigitsOf k)]
    apply List.map_congr_left
    intro d hd
    exact digitChar_toNat d (decimalDigitsOf_lt k d hd)
  rw [hid, hid] at h2
  rw [← ofDigits_decimalDigitsOf n, ← ofDigits_decimalDigitsOf m, h2]

theorem string_append_left_cancel (p a b : String) (h : p ++ a = p ++ b) : a = b := by
  have h1 := congrArg String.data h
  simp only [String.data_append] at h1
  exact String.ext (List.append_cancel_left h1)

theorem TripleWithRelation_triples (t : ScTemplate) (p1 p2 p3 p4 p5 : GoValue) (t2 : ScTemplate)
    (h : t.TripleWithRelation p1 p2 p3 p4 p5 = .ok t2) :
    ∃ v s1 s3 s4 s5, splitTemplateParam p2 = .ok v ∧ splitTemplateParam p1 = .ok s1 ∧
      splitTemplateParam p3 = .ok s3 ∧ splitTemplateParam p4 = .ok s4 ∧
      splitTemplateParam p5 = .ok s5 ∧
      t2.Triples = t.Triples ++
        [{ Source := s1,
           Edge := { Value := .templateValue v.Value (relationAlias t v), Alias := "" },
           Target := s3 },
         { Source := s5, Edge := s4,
           Target := { Value := .string (relationAlias t v), Alias := "" } }] := by
  unfold ScTemplate.TripleWithRelation at h
  cases hv : splitTemplateParam p2 with
  | error e => rw [hv] at h; cases h
  | ok v =>
    rw [hv] at h
    simp only [ok_bind] at h
    cases ht1 : t.Triple p1 (.templateValue v.Value (relationAlias t v)) p3 with
    | error e => rw [ht1] at h; cases h
    | ok t1 =>
      rw [ht1] at h
      simp only [ok_bind] at h
      obtain ⟨s1, e1, s3, hs1, he1, hs3, htr1⟩ := Triple_appends _ _ _ _ _ ht1
      obtain ⟨s5, s4, g, hs5, hs4, hg, htr2⟩ := Triple_appends _ _ _ _ _ h
      have he1v : e1 = { Value := .templateValue v.Value (relationAlias t v), Alias := "" } := by
        have : splitTemplateParam (.templateValue v.Value (relationAlias t v)) =
            .ok { Value := .templateValue v.Value (relationAlias t v), Alias := "" } := rfl
        rw [this] at he1
        cases he1; rfl
      have hgv : g = { Value := .string (relationAlias t v), Alias := "" } := by
        have : splitTemplateParam (.string (relationAlias t v)) =
            .ok { Value := .string (relationAlias t v), Alias := "" } := rfl
        rw [this] at hg
        cases hg; rfl
      refine ⟨v, s1, s3, s4, s5, rfl, hs1, hs3, hs4, hs5, ?_⟩
      rw [htr2, htr1, he1v, hgv]
      simp

/-- C5 (the code at the failing input): on the empty template,
`TripleWithRelation` with an address, a type, an address, a type and an
address appends two triples, but the edge slot of the first has the empty
alias and holds, as its value, a whole template value (the type together
with the alias `edge_1_0`) instead of the type itself. -/
theorem TripleWithRelation_wraps_edge :
    emptyTemplate.TripleWithRelation (.scAddr ⟨1⟩) (.scType ⟨2256⟩) (.scAddr ⟨3⟩)
      (.scType ⟨2256⟩) (.scAddr ⟨5⟩) = .ok relationTemplate ∧
    relationTemplate.Triples.map (fun tr => tr.Edge.Alias) = ["", ""] ∧
    relationTemplate.Triples.map (fun tr => isTripleItem tr.Edge.Value) = [false, true] := by
  refine ⟨rfl, rfl, rfl⟩

theorem relationAlias_generated (t : ScTemplate) (v : ScTemplateValue) (h : v.Alias = "") :
    relationAlias t v = "edge_1_" ++ formatDecimal t.Triples.length := by
  simp [relationAlias, h]

theorem TripleWithRelation_last (t : ScTemplate) (p1 p2 p3 p4 p5 : GoValue) (t2 : ScTemplate)
    (v : ScTemplateValue) (hv : splitTemplateParam p2 = .ok v)
    (h : t.TripleWithRelation p1 p2 p3 p4 p5 = .ok t2) :
    t2.Triples.length = t.Triples.length + 2 ∧
    ∃ tr, t2.Triples.getLast? = some tr ∧ tr.Target.Value = .string (relationAlias t v) := by
  obtain ⟨v1, s1, s3, s4, s5, hv1, _, _, _, _, htr⟩ := TripleWithRelation_triples _ _ _ _ _ _ _ h
  rw [hv] at hv1
  cases hv1
  rw [htr]
  refine ⟨by simp, ?_⟩
  simp [List.getLast?_append]

theorem runTemplateCalls_length (calls : List TemplateCall) (t t1 : ScTemplate)
    (h : runTemplateCalls t calls = .ok t1) : t.Triples.length ≤ t1.Triples.length := by
  induction calls generalizing t with
  | nil =>
    simp only [runTemplateCalls] at h
    cases h
    exact Nat.le_refl _
  | cons call rest ih =>
    simp only [runTemplateCalls] at h
    cases hc : call.run t with
    | error e => rw [hc] at h; cases h
    | ok t0 =>
      rw [hc] at h
      have h0 : t.Triples.length ≤ t0.Triples.length := by
        cases call with
        | triple p1 p2 p3 =>
          obtain ⟨s1, s2, s3, _, _, _, htr⟩ := Triple_appends _ _ _ _ _ hc
          rw [htr]; simp
        | tripleWithRelation p1 p2 p3 p4 p5 =>
          obtain ⟨v, s1, s3, s4, s5, _, _, _, _, _, htr⟩ :=
            TripleWithRelation_triples _ _ _ _ _ _ _ hc
          rw [htr]; simp
      exact Nat.le_trans h0 (ih t0 h)

/-- C6 (counterexample): on the empty template a `TripleWithRelation` call
without an explicit edge alias generates `edge_1_0`, and a triple added
afterwards may carry the explicit alias `edge_1_0`: the two are equal. -/
theorem generated_alias_collides :
    emptyTemplate.TripleWithRelation (.scAddr ⟨1⟩) (.scType ⟨2256⟩) (.scAddr ⟨3⟩)
      (.scType ⟨2256⟩) (.scAddr ⟨5⟩) = .ok relationTemplate ∧
    relationAlias emptyTemplate { Value := .scType ⟨2256⟩, Alias := "" } = "edge_1_0" ∧
    ∃ t2, relationTemplate.Triple (.slice [.scAddr ⟨9⟩, .string "edge_1_0"])
        (.scType ⟨2256⟩) (.scAddr ⟨3⟩) = .ok t2 ∧
      t2.Triples.map (fun tr => tr.Source.Alias) = ["", "", "edge_1_0"] := by
  refine ⟨rfl, rfl, _, rfl, rfl⟩

/-- C6 (amended): the alias generated by a `TripleWithRelation` call without
an explicit edge alias is `edge_1_` followed by the decimal number of
triples the template holds at the call; it is the value of the target slot
of the last triple added, and it differs from every string that does not
start with `edge_1_`, so from every explicit alias not of that form. -/
theorem generated_alias_avoids_other_names (t : ScTemplate) (p1 p2 p3 p4 p5 : GoValue)
    (t2 : ScTemplate) (v : ScTemplateValue) (hv : splitTemplateParam p2 = .ok v)
    (hal : v.Alias = "") (h : t.TripleWithRelation p1 p2 p3 p4 p5 = .ok t2) :
    relationAlias t v = "edge_1_" ++ formatDecimal t.Triples.length ∧
    (∃ tr, t2.Triples.getLast? = some tr ∧ tr.Target.Value = .string (relationAlias t v)) ∧
    ∀ s : String, ¬ ("edge_1_".data <+: s.data) → relationAlias t v ≠ s := by
  refine ⟨relationAlias_generated t v hal, (TripleWithRelation_last _ _ _ _ _ _ _ v hv h).2, ?_⟩
  intro s hs heq
  apply hs
  rw [← heq, relationAlias_generated t v hal, String.data_append]
  exact List.prefix_append _ _

/-- Witness of the amended C6 on the empty template. -/
theorem generated_alias_avoids_other_names_witness :
    relationAlias emptyTemplate { Value := .scType ⟨2256⟩, Alias := "" } =
      "edge_1_" ++ formatDecimal emptyTemplate.Triples.length ∧
    (∃ tr, relationTemplate.Triples.getLast? = some tr ∧ tr.Target.Value =
      .string (relationAlias emptyTemplate { Value := .scType ⟨2256⟩, Alias := "" })) ∧
    ∀ s : String, ¬ ("edge_1_".data <+: s.data) →
      relationAlias emptyTemplate { Value := .scType ⟨2256⟩, Alias := "" } ≠ s :=
  generated_alias_avoids_other_names emptyTemplate (.scAddr ⟨1⟩) (.scType ⟨2256⟩) (.scAddr ⟨3⟩)
    (.scType ⟨2256⟩) (.scAddr ⟨5⟩) relationTemplate { Value := .scType ⟨2256⟩, Alias := "" }
    rfl rfl rfl

/-- C7: two `TripleWithRelation` calls on one template, neither with an
explicit edge alias and with any calls in between, generate different
aliases; each is the value of the target slot of the last triple its call
added. -/
theorem generated_aliases_differ (t0 : ScTemplate) (p1 p2 p3 p4 p5 q1 q2 q3 q4 q5 : GoValue)
    (between : List TemplateCall) (t1 t2 t3 : ScTemplate) (v w : ScTemplateValue)
    (hv : splitTemplateParam p2 = .ok v) (hva : v.Alias = "")
    (hw : splitTemplateParam q2 = .ok w) (hwa : w.Alias = "")
    (h1 : t0.TripleWithRelation p1 p2 p3 p4 p5 = .ok t1)
    (h2 : runTemplateCalls t1 between = .ok t2)
    (h3 : t2.TripleWithRelation q1 q2 q3 q4 q5 = .ok t3) :
    relationAlias t0 v ≠ relationAlias t2 w ∧
    (∃ tr, t1.Triples.getLast? = some tr ∧ tr.Target.Value = .string (relationAlias t0 v)) ∧
    ∃ tr, t3.Triples.getLast? = some tr ∧ tr.Target.Value = .string (relationAlias t2 w) := by
  have hl1 := TripleWithRelation_last _ _ _ _ _ _ _ v hv h1
  have hl3 := TripleWithRelation_last _ _ _ _ _ _ _ w hw h3
  refine ⟨?_, hl1.2, hl3.2⟩
  intro heq
  rw [relationAlias_generated t0 v hva, relationAlias_generated t2 w hwa] at heq
  have hlen := formatDecimal_injective _ _ (string_append_left_cancel _ _ _ heq)
  have hle := runTemplateCalls_length between t1 t2 h2
  omega

/-- Witness of C7: the same call made twice in a row on the empty template. -/
theorem generated_aliases_differ_witness :
    relationAlias emptyTemplate { Value := .scType ⟨2256⟩, Alias := "" } ≠
      relationAlias relationTemplate { Value := .scType ⟨2256⟩, Alias := "" } ∧
    (∃ tr, relationTemplate.Triples.getLast? = some tr ∧ tr.Target.Value =
      .string (relationAlias emptyTemplate { Value := .scType ⟨2256⟩, Alias := "" })) ∧
    ∃ tr, relationTemplateTwice.Triples.getLast? = some tr ∧ tr.Target.Value =
      .string (relationAlias relationTemplate { Value := .scType ⟨2256⟩, Alias := "" }) :=
  generated_aliases_differ emptyTemplate (.scAddr ⟨1⟩) (.scType ⟨2256⟩) (.scAddr ⟨3⟩)
    (.scType ⟨2256⟩) (.scAddr ⟨5⟩) (.scAddr ⟨1⟩) (.scType ⟨2256⟩) (.scAddr ⟨3⟩)
    (.scType ⟨2256⟩) (.scAddr ⟨5⟩) [] relationTemplate relationTemplate relationTemplateTwice
    { Value := .scType ⟨2256⟩, Alias := "" } { Value := .scType ⟨2256⟩, Alias := "" }
    rfl rfl rfl rfl rfl rfl rfl

/-! ## Constructions -/

theorem addCommand_effect (c : ScConstruction) (cmd : ScConstructionCommand) (al : String) :
    (c.addCommand cmd al).Commands = c.Commands ++ [cmd] ∧
    (al ≠ "" → (c.addCommand cmd al).GetIndex al = ((c.Commands.length : Int), true) ∧
      ∀ other : String, other ≠ al → (c.addCommand cmd al).GetIndex other = c.GetIndex other) ∧
    (al = "" → (c.addCommand cmd al).Aliases = c.Aliases) := by
  refine ⟨rfl, ?_, ?_⟩
  · intro hal
    constructor
    · simp [ScConstruction.addCommand, ScConstruction.GetIndex, hal, mapGet_mapSet]
    · intro other ho
      have ho2 : ¬ al = other := fun e => ho e.symm
      cases hA : c.Aliases with
      | none =>
        simp [ScConstruction.addCommand, ScConstruction.GetIndex, hal, mapGet_mapSet, hA, ho2,
          mapGet]
      | some m =>
        simp [ScConstruction.addCommand, ScConstruction.GetIndex, hal, mapGet_mapSet, hA, ho2]
  · intro hal
    simp [ScConstruction.addCommand, hal]

/-- C8: `CreateNode` with a type that is not a node, `CreateEdge` with a
type that is not an edge and `CreateLink` with a type that is not a link
return an error and the construction as it was, whatever the alias. -/
theorem create_rejects_wrong_kind (c : ScConstruction) (t : ScType) (al : String) :
    (t.IsNode = false → c.CreateNode t al = (c, some "you should pass node type there")) ∧
    (t.IsEdge = false → ∀ src trg : GoValue,
      c.CreateEdge t src trg al = (c, some "you should pass edge type there")) ∧
    (t.IsLink = false → ∀ content : ScLinkContent,
      c.CreateLink t content al = (c, some "you should pass link type there")) := by
  refine ⟨?_, ?_, ?_⟩
  · intro h
    simp [ScConstruction.CreateNode, h]
  · intro h src trg
    simp [ScConstruction.CreateEdge, h]
  · intro h content
    simp [ScConstruction.CreateLink, h]

/-- Witness of C8: the mask 32 (constant, no kind bit) with the alias `x`
on `oneNodeConstruction`. -/
theorem create_rejects_wrong_kind_witness :
    oneNodeConstruction.CreateNode ⟨32⟩ "x" =
      (oneNodeConstruction, some "you should pass node type there") ∧
    oneNodeConstruction.CreateEdge ⟨32⟩ (.string "n") (.scAddr ⟨4⟩) "x" =
      (oneNodeConstruction, some "you should pass edge type there") ∧
    oneNodeConstruction.CreateLink ⟨32⟩ ⟨.string "text", 2, none⟩ "x" =
      (oneNodeConstruction, some "you should pass link type there") :=
  ⟨(create_rejects_wrong_kind oneNodeConstruction ⟨32⟩ "x").1 (by decide),
   (create_rejects_wrong_kind oneNodeConstruction ⟨32⟩ "x").2.1 (by decide) _ _,
   (create_rejects_wrong_kind oneNodeConstruction ⟨32⟩ "x").2.2 (by decide) _⟩

/-- C9: a `CreateNode`, `CreateEdge` or `CreateLink` call that passes its
kind check returns the nil error and appends exactly one command of the
given type after the commands already there; a non-empty alias then
resolves to the position of the new command while every other alias
resolves as before, and with the empty alias the alias table is unchanged. -/
theorem create_appends_and_binds (c : ScConstruction) (t : ScType) (al : String) :
    (t.IsNode = true →
      (c.CreateNode t al).2 = none ∧
      (c.CreateNode t al).1.Commands = c.Commands ++ [{ Typ := t, Data := .nil }] ∧
      (al ≠ "" → (c.CreateNode t al).1.GetIndex al = ((c.Commands.length : Int), true) ∧
        ∀ other : String, other ≠ al →
          (c.CreateNode t al).1.GetIndex other = c.GetIndex other) ∧
      (al = "" → (c.CreateNode t al).1.Aliases = c.Aliases)) ∧
    (t.IsEdge = true → ∀ src trg : GoValue,
      (c.CreateEdge t src trg al).2 = none ∧
      (c.CreateEdge t src trg al).1.Commands =
        c.Commands ++ [{ Typ := t, Data := .map [("src", src), ("trg", trg)] }] ∧
      (al ≠ "" → (c.CreateEdge t src trg al).1.GetIndex al = ((c.Commands.length : Int), true) ∧
        ∀ other : String, other ≠ al →
          (c.CreateEdge t src trg al).1.GetIndex other = c.GetIndex other) ∧
      (al = "" → (c.CreateEdge t src trg al).1.Aliases = c.Aliases)) ∧
    (t.IsLink = true → ∀ content : ScLinkContent,
      (c.CreateLink t content al).2 = none ∧
      (c.CreateLink t content al).1.Commands =
        c.Commands ++ [{ Typ := t, Data := .map [("content", content.Data),
          ("type", .linkContentType content.Typ)] }] ∧
      (al ≠ "" → (c.CreateLink t content al).1.GetIndex al = ((c.Commands.length : Int), true) ∧
        ∀ other : String, other ≠ al →
          (c.CreateLink t content al).1.GetIndex other = c.GetIndex other) ∧
      (al = "" → (c.CreateLink t content al).1.Aliases = c.Aliases)) := by
  refine ⟨?_, ?_, ?_⟩
  · intro h
    have hr : c.CreateNode t al = (c.addCommand { Typ := t, Data := .nil } al, none) := by
      simp [ScConstruction.CreateNode, h]
    rw [hr]
    exact ⟨rfl, addCommand_effect c _ al⟩
  · intro h src trg
    have hr : c.CreateEdge t src trg al =
        (c.addCommand { Typ := t, Data := .map [("src", src), ("trg", trg)] } al, none) := by
      simp [ScConstruction.CreateEdge, h]
    rw [hr]
    exact ⟨rfl, addCommand_effect c _ al⟩
  · intro h content
    have hr : c.CreateLink t content al =
        (c.addCommand { Typ := t, Data := .map [("content", content.Data),
          ("type", .linkContentType content.Typ)] } al, none) := by
      simp [ScConstruction.CreateLink, h]
    rw [hr]
    exact ⟨rfl, addCommand_effect c _ al⟩

/-- Witness of C9: a node of mask 33 with the alias `m` added to
`oneNodeConstruction`. -/
theorem create_appends_and_binds_witness :
    (oneNodeConstruction.CreateNode ⟨33⟩ "m").2 = none ∧
    (oneNodeConstruction.CreateNode ⟨33⟩ "m").1.Commands =
      oneNodeConstruction.Commands ++ [{ Typ := ⟨33⟩, Data := .nil }] ∧
    ("m" ≠ "" → (oneNodeConstruction.CreateNode ⟨33⟩ "m").1.GetIndex "m" =
        ((oneNodeConstruction.Commands.length : Int), true) ∧
      ∀ other : String, other ≠ "m" →
        (oneNodeConstruction.CreateNode ⟨33⟩ "m").1.GetIndex other =
          oneNodeConstruction.GetIndex other) ∧
    ("m" = "" → (oneNodeConstruction.CreateNode ⟨33⟩ "m").1.Aliases =
      oneNodeConstruction.Aliases) :=
  (create_appends_and_binds oneNodeConstruction ⟨33⟩ "m").1 (by decide)

theorem run_accepted (c : ScConstruction) (call : ConstructionCall)
    (h : call.accepted = true) :
    ∃ cmd, (call.run c).1 = c.addCommand cmd call.aliasArg ∧ (call.run c).2 = none := by
  cases call with
  | node t al =>
    simp only [ConstructionCall.accepted] at h
    refine ⟨{ Typ := t, Data := .nil }, ?_,
      by simp [ConstructionCall.run, ScConstruction.CreateNode, h]⟩
    simp only [ConstructionCall.run, ScConstruction.CreateNode, h, ConstructionCall.aliasArg]
    rfl
  | edge t src trg al =>
    simp only [ConstructionCall.accepted] at h
    refine ⟨{ Typ := t, Data := .map [("src", src), ("trg", trg)] }, ?_,
      by simp [ConstructionCall.run, ScConstruction.CreateEdge, h]⟩
    simp only [ConstructionCall.run, ScConstruction.CreateEdge, h, ConstructionCall.aliasArg]
    rfl
  | link t content al =>
    simp only [ConstructionCall.accepted] at h
    refine ⟨{ Typ := t, Data := .map [("content", content.Data),
      ("type", .linkContentType content.Typ)] }, ?_,
      by simp [ConstructionCall.run, ScConstruction.CreateLink, h]⟩
    simp only [ConstructionCall.run, ScConstruction.CreateLink, h, ConstructionCall.aliasArg]
    rfl

theorem run_rejected (c : ScConstruction) (call : ConstructionCall)
    (h : call.accepted = false) : (call.run c).1 = c := by
  cases call <;> simp only [ConstructionCall.accepted] at h <;>
    simp [ConstructionCall.run, ScConstruction.CreateNode, ScConstruction.CreateEdge,
      ScConstruction.CreateLink, h]

theorem run_length_le (c : ScConstruction) (call : ConstructionCall) :
    c.Commands.length ≤ (call.run c).1.Commands.length := by
  cases h : call.accepted with
  | false => rw [run_rejected c call h]
  | true =>
    obtain ⟨cmd, hr, _⟩ := run_accepted c call h
    rw [hr, (addCommand_effect c cmd _).1]
    simp

theorem runConstructionCalls_length_le (calls : List ConstructionCall) (c : ScConstruction) :
    c.Commands.length ≤ (runConstructionCalls c calls).Commands.length := by
  induction calls generalizing c with
  | nil => exact Nat.le_refl _
  | cons call rest ih =>
    simp only [runConstructionCalls]
    exact Nat.le_trans (run_length_le c call) (ih _)

theorem runConstructionCalls_GetIndex (calls : List ConstructionCall) (c : ScConstruction)
    (a : String) (h : ∀ call ∈ calls, call.accepted = true → call.aliasArg ≠ a) :
    (runConstructionCalls c calls).GetIndex a = c.GetIndex a := by
  induction calls generalizing c with
  | nil => rfl
  | cons call rest ih =>
    simp only [runConstructionCalls]
    rw [ih _ (fun x hx => h x (List.mem_cons_of_mem _ hx))]
    cases hacc : call.accepted with
    | false => rw [run_rejected c call hacc]
    | true =>
      obtain ⟨cmd, hr, _⟩ := run_accepted c call hacc
      have hne := h call (List.mem_cons_self _ _) hacc
      rw [hr]
      by_cases hal : call.aliasArg = ""
      · have hA := (addCommand_effect c cmd call.aliasArg).2.2 hal
        simp only [ScConstruction.GetIndex, hA]
      · exact ((addCommand_effect c cmd call.aliasArg).2.1 hal).2 a (fun e => hne e.symm)

/-- C10: when the same non-empty alias is passed to two accepted add calls
of one construction, the first at position `i = len(c.Commands)` and the
second at position `j` after any calls in between, and to no accepted call
afterwards, then `i < j` and `GetIndex` of the alias returns `(j, true)`:
the binding to `i`, readable right after the first call, is gone. -/
theorem later_binding_wins (c : ScConstruction) (a : String)
    (first second : ConstructionCall) (mid later : List ConstructionCall)
    (ha : a ≠ "") (hf : first.aliasArg = a) (hs : second.aliasArg = a)
    (hfa : first.accepted = true) (hsa : second.accepted = true)
    (hl : ∀ call ∈ later, call.accepted = true → call.aliasArg ≠ a) :
    (first.run c).2 = none ∧
    (first.run c).1.GetIndex a = ((c.Commands.length : Int), true) ∧
    (second.run (runConstructionCalls (first.run c).1 mid)).2 = none ∧
    c.Commands.length < (runConstructionCalls (first.run c).1 mid).Commands.length ∧
    (runConstructionCalls
        (second.run (runConstructionCalls (first.run c).1 mid)).1 later).GetIndex a =
      (((runConstructionCalls (first.run c).1 mid).Commands.length : Int), true) ∧
    (runConstructionCalls
        (second.run (runConstructionCalls (first.run c).1 mid)).1 later).GetIndex a ≠
      ((c.Commands.length : Int), true) := by
  obtain ⟨cmd1, hr1, he1⟩ := run_accepted c first hfa
  obtain ⟨cmd2, hr2, he2⟩ := run_accepted (runConstructionCalls (first.run c).1 mid) second hsa
  have hlt : c.Commands.length < (runConstructionCalls (first.run c).1 mid).Commands.length := by
    have h1 := runConstructionCalls_length_le mid (first.run c).1
    have h2 : (first.run c).1.Commands.length = c.Commands.length + 1 := by
      rw [hr1, (addCommand_effect c cmd1 _).1]; simp
    omega
  have hfin : (runConstructionCalls
        (second.run (runConstructionCalls (first.run c).1 mid)).1 later).GetIndex a =
      (((runConstructionCalls (first.run c).1 mid).Commands.length : Int), true) := by
    rw [runConstructionCalls_GetIndex later _ a hl, hr2, hs]
    exact ((addCommand_effect _ cmd2 a).2.1 ha).1
  refine ⟨he1, ?_, he2, hlt, hfin, ?_⟩
  · rw [hr1, hf]
    exact ((addCommand_effect c cmd1 a).2.1 ha).1
  · rw [hfin]
    intro h
    have h3 := congrArg Prod.fst h
    simp only at h3
    omega

/-- Witness of C10: the alias `n` given to two nodes of the empty
construction with a link in between and an edge afterwards. -/
theorem later_binding_wins_witness :
    (runConstructionCalls emptyConstruction
      [.node ⟨33⟩ "n", .link ⟨34⟩ ⟨.string "text", 2, none⟩ "l", .node ⟨33⟩ "n",
       .edge ⟨2256⟩ (.string "n") (.string "l") ""]).GetIndex "n" = (2, true) :=
  (later_binding_wins emptyConstruction "n" (.node ⟨33⟩ "n") (.node ⟨33⟩ "n")
    [.link ⟨34⟩ ⟨.string "text", 2, none⟩ "l"] [.edge ⟨2256⟩ (.string "n") (.string "l") ""]
    (by decide) rfl rfl (by decide) (by decide) (by decide)).2.2.2.2.1

/-! ## Submitting a construction -/

theorem transformEdgeInfo_unbound (c : ScConstruction) (s : String)
    (h : (c.GetIndex s).2 = false) :
    transformEdgeInfo c (.string s) = .error ("invalid alias: " ++ s) := by
  rcases hg : c.GetIndex s with ⟨idx, b⟩
  rw [hg] at h
  simp only at h
  subst h
  simp only [transformEdgeInfo, hg]

theorem createElementRecord_unbound (c : ScConstruction) (t : ScType) (src trg : GoValue)
    (s : String) (hn : t.IsNode = false) (he : t.IsEdge = true)
    (hs : src = .string s ∨ trg = .string s) (hu : (c.GetIndex s).2 = false) :
    ∃ msg, createElementRecord c { Typ := t, Data := .map [("src", src), ("trg", trg)] } =
      .error msg := by
  have hsrc : mapIndex [("src", src), ("trg", trg)] "src" = src := rfl
  have htrg : mapIndex [("src", src), ("trg", trg)] "trg" = trg := rfl
  simp only [createElementRecord, hn, he, asMap_map, ok_bind, hsrc, htrg, Bool.false_eq_true,
    if_false, if_true]
  rcases hs with h | h
  · subst h
    rw [transformEdgeInfo_unbound c s hu]
    exact ⟨_, rfl⟩
  · subst h
    cases hsrc2 : transformEdgeInfo c src with
    | error e => exact ⟨e, rfl⟩
    | ok r =>
      simp only [ok_bind]
      rw [transformEdgeInfo_unbound c s hu]
      exact ⟨_, rfl⟩

/-- C11 (counterexample): `CreateEdge` accepts the mask 17, which has the
node bit next to an edge bit, with the unbound name `missing` as source;
`CreateElements` then takes the command for a node, builds its record
without looking at the endpoints and sends the request. -/
theorem unbound_alias_sent_for_mixed_mask :
    (emptyConstruction.CreateEdge ⟨17⟩ (.string "missing") (.scAddr ⟨1⟩) "").2 = none ∧
    mixedKindConstruction.GetIndex "missing" = (0, false) ∧
    createElementsPayload mixedKindConstruction =
      .ok [.map [("type", .int 17), ("el", .string "node")]] ∧
    (idleClient.CreateElements ⟨true, true⟩ mixedKindConstruction).2 = none ∧
    (idleClient.CreateElements ⟨true, true⟩ mixedKindConstruction).1.written.length = 1 := by
  refine ⟨rfl, rfl, rfl, rfl, rfl⟩

/-- C11 (amended): when a construction holds a command made by `CreateEdge`
whose type is not also a node type and whose source or target is a name
that `GetIndex` does not find, building the payload panics, the endpoint
itself being rejected as an invalid alias and never encoded, and
`CreateElements` ends there with the client as before: nothing is sent. -/
theorem unbound_alias_fails_before_send (c : ScConstruction) (t : ScType) (src trg : GoValue)
    (s : String) (hn : t.IsNode = false) (he : t.IsEdge = true)
    (hmem : { Typ := t, Data := .map [("src", src), ("trg", trg)] } ∈ c.Commands)
    (hs : src = .string s ∨ trg = .string s) (hu : (c.GetIndex s).2 = false) :
    transformEdgeInfo c (.string s) = .error ("invalid alias: " ++ s) ∧
    ∃ msg, createElementsPayload c = .error msg ∧
      ∀ (client : ScClient) (env : SendEnv), client.CreateElements env c = (client, some msg) := by
  refine ⟨transformEdgeInfo_unbound c s hu, ?_⟩
  obtain ⟨e, he2⟩ := createElementRecord_unbound c t src trg s hn he hs hu
  obtain ⟨msg, hmsg⟩ := mapM_error_of_mem (createElementRecord c) c.Commands _ hmem e he2
  have hmsg2 : createElementsPayload c = .error msg := hmsg
  refine ⟨msg, hmsg2, ?_⟩
  intro client env
  simp only [ScClient.CreateElements, hmsg2]

/-- Witness of the amended C11 on `unboundRefConstruction`. -/
theorem unbound_alias_fails_before_send_witness :
    transformEdgeInfo unboundRefConstruction (.string "ghost") =
      .error ("invalid alias: " ++ "ghost") ∧
    ∃ msg, createElementsPayload unboundRefConstruction = .error msg ∧
      ∀ (client : ScClient) (env : SendEnv),
        client.CreateElements env unboundRefConstruction = (client, some msg) :=
  unbound_alias_fails_before_send unboundRefConstruction ⟨2256⟩ (.string "ghost") (.string "n")
    "ghost" (by decide) (by decide) (List.mem_cons_of_mem _ (List.mem_cons_self _ _))
    (Or.inl rfl) (by decide)

/-- C12: `transformEdgeInfo` encodes an address endpoint as the record with
`type` = `addr` and `value` = the identifier, and a name that `GetIndex`
finds at position `k` as the record with `type` = `ref` and `value` = `k`.
The table read is the one of the construction at submission, so the bound
command may stand before or after the edge command. -/
theorem transformEdgeInfo_encodes (c : ScConstruction) :
    (∀ a : ScAddr, ∃ record, transformEdgeInfo c (.scAddr a) = .ok record ∧
      mapGet record "type" = some (.string "addr") ∧
      mapGet record "value" = some (.int64 a.Value) ∧
      ∀ k : String, k ≠ "type" → k ≠ "value" → mapGet record k = none) ∧
    ∀ (s : String) (k : Int), c.GetIndex s = (k, true) →
      ∃ record, transformEdgeInfo c (.string s) = .ok record ∧
        mapGet record "type" = some (.string "ref") ∧
        mapGet record "value" = some (.int k) ∧
        ∀ j : String, j ≠ "type" → j ≠ "value" → mapGet record j = none := by
  constructor
  · intro a
    refine ⟨_, rfl, ?_, ?_, ?_⟩
    · simp [mapGet_mapSet, mapGet]
    · simp [mapGet_mapSet]
    · intro k h1 h2
      simp [mapGet_mapSet, mapGet, Ne.symm h1, Ne.symm h2]
  · intro s k h
    refine ⟨mapSet (mapSet [] "type" (.string "ref")) "value" (.int k), ?_, ?_, ?_, ?_⟩
    · simp only [transformEdgeInfo, h]
    · simp [mapGet_mapSet, mapGet]
    · simp [mapGet_mapSet]
    · intro j h1 h2
      simp [mapGet_mapSet, mapGet, Ne.symm h1, Ne.symm h2]

/-- Witness of C12: in `forwardRefConstruction` the edge at position 0 names
the node added after it, and the name encodes as a reference to position 1. -/
theorem transformEdgeInfo_encodes_witness :
    ∃ record, transformEdgeInfo forwardRefConstruction (.string "n") = .ok record ∧
      mapGet record "type" = some (.string "ref") ∧
      mapGet record "value" = some (.int 1) ∧
      ∀ j : String, j ≠ "type" → j ≠ "value" → mapGet record j = none :=
  (transformEdgeInfo_encodes forwardRefConstruction).2 "n" 1 (by decide)

/-! ## The pump and the correlation table -/

theorem mapGet_mapDelete {K V : Type} [DecidableEq K] (m : List (K × V)) (k a : K) :
    mapGet (mapDelete m k) a = if a = k then none else mapGet m a :=
  mapGet_filter_ne m k a

theorem eventsCreateLoop_frame (events : List ScEventParams) (ids : List GoValue)
    (c : ScClient) (i : Nat) :
    (eventsCreateLoop events c i ids).1 =
      { c with events := (eventsCreateLoop events c i ids).1.events } := by
  induction ids generalizing c i with
  | nil => rfl
  | cons id rest ih =>
    simp only [eventsCreateLoop]
    cases asFloat64 id with
    | error msg => rfl
    | ok f =>
      simp only
      cases sliceIndex events (i : Int) with
      | error msg => rfl
      | ok params =>
        simp only
        rw [ih]

theorem invoke_frame (cb : ReplyHandler) (h : Handlers) (c : ScClient) (response : Response) :
    (cb.invoke h c response).1 = { c with events := (cb.invoke h c response).1.events } := by
  cases cb with
  | eventsCreate events =>
    simp only [ReplyHandler.invoke, eventsCreateReply]
    split
    · rfl
    · cases asSlice response.Payload with
      | error msg => rfl
      | ok eventIDs => exact eventsCreateLoop_frame events eventIDs c 0
  | _ => rfl

theorem invoke_other (cb : ReplyHandler) (h : Handlers) (c : ScClient) (response : Response)
    (hcb : ∀ events, cb ≠ .eventsCreate events) :
    cb.invoke h c response = (c, h.reply cb response) := by
  cases cb with
  | eventsCreate events => exact absurd rfl (hcb events)
  | _ => rfl

theorem handleResponse_reply (c : ScClient) (h : Handlers) (response : Response)
    (cb : ReplyHandler) (hne : response.Event = false)
    (hcb : mapGet c.callbacks response.ID = some cb) :
    c.handleResponse h response =
      match (cb.invoke h c response).2 with
      | some msg =>
        { client := (cb.invoke h c response).1, invoked := [.reply cb response],
          panic := some msg, blocked := false }
      | none =>
        { client := { (cb.invoke h c response).1 with
            callbacks := mapDelete (cb.invoke h c response).1.callbacks response.ID },
          invoked := [.reply cb response], panic := none, blocked := false } := by
  simp only [ScClient.handleResponse, hne, hcb, Bool.false_eq_true, if_false]
  rcases cb.invoke h c response with ⟨c1, _ | msg⟩ <;> rfl

/-- C13: the pump, handling a non-event reply with id `k`: when `k` is in
the callbacks table, calls the closure stored there exactly once with that
reply; the call leaves every field of the client but `events` as it was,
and `events` too unless the closure is the one of `EventsCreate`; the
closure having returned, the pump deletes `k` and nothing else from the
table, so that a second reply with the id `k` calls nothing and changes
nothing; a closure that panics ends the pump before the delete. When `k` is
not in the table, the pump calls nothing and changes nothing. -/
theorem reply_resolves_once (c : ScClient) (h : Handlers) (response : Response)
    (hne : response.Event = false) :
    (∀ cb, mapGet c.callbacks response.ID = some cb →
      (c.handleResponse h response).invoked = [.reply cb response] ∧
      (c.handleResponse h response).panic = (cb.invoke h c response).2 ∧
      (c.handleResponse h response).blocked = false ∧
      (cb.invoke h c response).1 = { c with events := (cb.invoke h c response).1.events } ∧
      ((∀ events, cb ≠ .eventsCreate events) →
        cb.invoke h c response = (c, h.reply cb response)) ∧
      ((cb.invoke h c response).2 = none →
        (c.handleResponse h response).client =
          { c with callbacks := mapDelete c.callbacks response.ID,
                   events := (cb.invoke h c response).1.events } ∧
        mapGet (c.handleResponse h response).client.callbacks response.ID = none ∧
        (∀ j, j ≠ response.ID →
          mapGet (c.handleResponse h response).client.callbacks j = mapGet c.callbacks j) ∧
        ∀ second : Response, second.Event = false → second.ID = response.ID →
          ((c.handleResponse h response).client.handleResponse h second).invoked = [] ∧
          ((c.handleResponse h response).client.handleResponse h second).client =
            (c.handleResponse h response).client ∧
          ((c.handleResponse h response).client.handleResponse h second).panic = none) ∧
      (∀ msg, (cb.invoke h c response).2 = some msg →
        (c.handleResponse h response).client = (cb.invoke h c response).1 ∧
        (c.handleResponse h response).client.callbacks = c.callbacks)) ∧
    (mapGet c.callbacks response.ID = none →
      (c.handleResponse h response).invoked = [] ∧
      (c.handleResponse h response).client = c ∧
      (c.handleResponse h response).panic = none ∧
      (c.handleResponse h response).blocked = false) := by
  constructor
  · intro cb hcb
    have hres := handleResponse_reply c h response cb hne hcb
    have hframe := invoke_frame cb h c response
    refine ⟨?_, ?_, ?_, hframe, invoke_other cb h c response, ?_, ?_⟩
    · rw [hres]; cases (cb.invoke h c response).2 <;> rfl
    · rw [hres]; cases (cb.invoke h c response).2 <;> rfl
    · rw [hres]; cases (cb.invoke h c response).2 <;> rfl
    · intro hret
      have hcl : (c.handleResponse h response).client =
          { c with callbacks := mapDelete c.callbacks response.ID,
                   events := (cb.invoke h c response).1.events } := by
        rw [hres, hret]
        simp only
        rw [hframe]
      rw [hcl]
      refine ⟨rfl, ?_, ?_, ?_⟩
      · simp [mapGet_mapDelete]
      · intro j hj
        simp [mapGet_mapDelete, hj]
      · intro second hs hid
        have hnone : mapGet (mapDelete c.callbacks response.ID) second.ID = none := by
          simp [mapGet_mapDelete, hid]
        simp [ScClient.handleResponse, hs, hnone]
    · intro msg hmsg
      have hcl : (c.handleResponse h response).client = (cb.invoke h c response).1 := by
        rw [hres, hmsg]
      refine ⟨hcl, ?_⟩
      rw [hcl, hframe]
  · intro hnone
    simp [ScClient.handleResponse, hne, hnone]

/-- Witness of C13: `pendingClient` receives `replyOne`, and
`creatingClient` receives `replyThree`, whose closure stores the two
subscriptions of the set under the ids 5 and 6 before the entry 3 is
deleted; the entry 2 stays. -/
theorem reply_resolves_once_witness :
    ((pendingClient.handleResponse quietHandlers replyOne).invoked =
      [.reply .templateSearch replyOne] ∧
     (pendingClient.handleResponse quietHandlers replyOne).client =
      { pendingClient with callbacks := [] }) ∧
    ((creatingClient.handleResponse quietHandlers replyThree).invoked =
      [.reply (.eventsCreate setEventParams) replyThree] ∧
     (creatingClient.handleResponse quietHandlers replyThree).client =
      { creatingClient with
        callbacks := [(2, .templateSearch)],
        events := [(6, ⟨6, "remove_outgoing_edge", .onEventRemoveElement⟩),
                   (5, ⟨5, "add_outgoing_edge", .onEventAddElement⟩)] }) :=
  ⟨⟨((reply_resolves_once pendingClient quietHandlers replyOne rfl).1 .templateSearch rfl).1,
    (((reply_resolves_once pendingClient quietHandlers replyOne rfl).1 .templateSearch
      rfl).2.2.2.2.2.1 rfl).1⟩,
   ⟨((reply_resolves_once creatingClient quietHandlers replyThree rfl).1
      (.eventsCreate setEventParams) rfl).1,
    (((reply_resolves_once creatingClient quietHandlers replyThree rfl).1
      (.eventsCreate setEventParams) rfl).2.2.2.2.2.1 rfl).1⟩⟩

theorem sendMessage_eventID (c : ScClient) (env : SendEnv) (actionType : String)
    (payload : GoValue) (callback : ReplyHandler) :
    (c.sendMessage env actionType payload callback).eventID = c.eventID + 1 := by
  unfold ScClient.sendMessage
  simp only
  split
  · rfl
  · split
    · split <;> rfl
    · rfl

theorem sendMessage_callbacks (c : ScClient) (env : SendEnv) (actionType : String)
    (payload : GoValue) (callback : ReplyHandler) :
    (c.sendMessage env actionType payload callback).callbacks =
      mapSet c.callbacks (c.eventID + 1) callback := by
  unfold ScClient.sendMessage
  simp only
  split
  · rfl
  · split
    · split <;> rfl
    · rfl

theorem sendMessage_events (c : ScClient) (env : SendEnv) (actionType : String)
    (payload : GoValue) (callback : ReplyHandler) :
    (c.sendMessage env actionType payload callback).events = c.events := by
  unfold ScClient.sendMessage
  simp only
  split
  · rfl
  · split
    · split <;> rfl
    · rfl

/-- C14 (counterexample): a `DeleteElements` call on `idleClient` that times
out returns its timeout error while the callbacks table still holds the
closure under the id 1 the call registered. -/
theorem timed_out_request_stays_registered :
    (idleClient.requestTimedOut ⟨true, true⟩ .deleteElements (.slice [.int64 5])).2 =
      "timeout while deleting elements" ∧
    mapGet (idleClient.requestTimedOut ⟨true, true⟩ .deleteElements
      (.slice [.int64 5])).1.callbacks 1 = some .deleteElements := by
  constructor <;> rfl

/-- C14 (amended): for every request method, when no reply arrives and the
call returns its timeout error, the callbacks table still holds the closure
of the call under the correlation id the call registered. -/
theorem timed_out_request_keeps_entry (c : ScClient) (env : SendEnv) (method : ReplyHandler)
    (payload : GoValue) :
    (c.requestTimedOut env method payload).2 = method.timeoutError ∧
    (c.requestTimedOut env method payload).1.eventID = c.eventID + 1 ∧
    mapGet (c.requestTimedOut env method payload).1.callbacks (c.eventID + 1) = some method := by
  refine ⟨rfl, sendMessage_eventID _ _ _ _ _, ?_⟩
  simp only [ScClient.requestTimedOut, sendMessage_callbacks, mapGet_mapSet, if_true]

theorem handleResponse_client (c : ScClient) (h : Handlers) (response : Response) :
    ∃ ev, (c.handleResponse h response).client = { c with events := ev } ∨
      (c.handleResponse h response).client =
        { c with events := ev, callbacks := mapDelete c.callbacks response.ID } := by
  by_cases he : response.Event = true
  · refine ⟨c.events, Or.inl ?_⟩
    simp only [ScClient.handleResponse, he, if_true]
    split
    · split
      · rfl
      · split <;> rfl
    · rfl
  · have hne : response.Event = false := by simpa using he
    cases hcb : mapGet c.callbacks response.ID with
    | none =>
      refine ⟨c.events, Or.inl ?_⟩
      simp [ScClient.handleResponse, hne, hcb]
    | some cb =>
      have hres := handleResponse_reply c h response cb hne hcb
      have hframe := invoke_frame cb h c response
      refine ⟨(cb.invoke h c response).1.events, ?_⟩
      cases hr : (cb.invoke h c response).2 with
      | some msg =>
        left
        rw [hres, hr]
        exact hframe
      | none =>
        right
        rw [hres, hr]
        simp only
        rw [hframe]

theorem handleResponse_eventID (c : ScClient) (h : Handlers) (response : Response) :
    (c.handleResponse h response).client.eventID = c.eventID := by
  obtain ⟨ev, hc | hc⟩ := handleResponse_client c h response <;> rw [hc]

theorem handleResponse_written (c : ScClient) (h : Handlers) (response : Response) :
    (c.handleResponse h response).client.written = c.written := by
  obtain ⟨ev, hc | hc⟩ := handleResponse_client c h response <;> rw [hc]

theorem handleResponse_callbacks (c : ScClient) (h : Handlers) (response : Response) (k : Int)
    (hk : (mapGet (c.handleResponse h response).client.callbacks k).isSome = true) :
    (mapGet c.callbacks k).isSome = true := by
  obtain ⟨ev, hc | hc⟩ := handleResponse_client c h response
  · rw [hc] at hk
    exact hk
  · rw [hc] at hk
    simp only [mapGet_mapDelete] at hk
    split at hk
    · cases hk
    · exact hk

theorem sendMessage_written_eq (c : ScClient) (env : SendEnv) (actionType : String)
    (payload : GoValue) (callback : ReplyHandler) :
    (c.sendMessage env actionType payload callback).written =
      if (env.marshalOk && c.connected && env.writeOk) = true then
        c.written ++ [{ ID := c.eventID + 1, Typ := actionType, Payload := payload }]
      else c.written := by
  unfold ScClient.sendMessage
  cases env.marshalOk <;> cases c.connected <;> cases env.writeOk <;> rfl

theorem sendMessage_messageQueue_eq (c : ScClient) (env : SendEnv) (actionType : String)
    (payload : GoValue) (callback : ReplyHandler) :
    (c.sendMessage env actionType payload callback).messageQueue =
      if (env.marshalOk && !(c.connected && env.writeOk)) = true then
        c.messageQueue ++
          [{ actionType := actionType, payload := payload, callback := callback }]
      else c.messageQueue := by
  unfold ScClient.sendMessage
  cases env.marshalOk <;> cases c.connected <;> cases env.writeOk <;> rfl

theorem runClientSteps_inv (h : Handlers) (steps : List ClientStep) (c : ScClient)
    (hinv : ∀ k, (mapGet c.callbacks k).isSome = true → k ≤ c.eventID) :
    (runClientSteps h c steps).2.Pairwise (· < ·) ∧
    (∀ id ∈ (runClientSteps h c steps).2, c.eventID < id) ∧
    (∀ k, (mapGet (runClientSteps h c steps).1.callbacks k).isSome = true →
      k ≤ (runClientSteps h c steps).1.eventID) ∧
    ∃ sent : List Request, (runClientSteps h c steps).1.written = c.written ++ sent ∧
      (sent.map (fun r => r.ID)).Sublist (runClientSteps h c steps).2 := by
  induction steps generalizing c with
  | nil =>
    exact ⟨List.Pairwise.nil, fun id hid => absurd hid (List.not_mem_nil id), hinv, [],
      (List.append_nil _).symm, List.Sublist.slnil⟩
  | cons step rest ih =>
    cases step with
    | send env actionType payload callback =>
      have hinv2 : ∀ k, (mapGet (c.sendMessage env actionType payload callback).callbacks
          k).isSome = true → k ≤ (c.sendMessage env actionType payload callback).eventID := by
        intro k hk
        rw [sendMessage_callbacks, mapGet_mapSet] at hk
        rw [sendMessage_eventID]
        split at hk
        · omega
        · have := hinv k hk; omega
      obtain ⟨h1, h2, h3, sent, h4, h5⟩ :=
        ih (c.sendMessage env actionType payload callback) hinv2
      rw [sendMessage_eventID] at h2
      simp only [runClientSteps]
      refine ⟨List.Pairwise.cons (fun id hid => ?_) h1, ?_, h3, ?_⟩
      · rw [sendMessage_eventID]; exact h2 id hid
      · intro id hid
        rcases List.mem_cons.mp hid with e | e
        · rw [e, sendMessage_eventID]; omega
        · have := h2 id e; omega
      · rw [sendMessage_written_eq] at h4
        split at h4
        · refine ⟨{ ID := c.eventID + 1, Typ := actionType, Payload := payload } :: sent, ?_, ?_⟩
          · rw [h4, List.append_assoc]; rfl
          · rw [sendMessage_eventID]
            exact List.Sublist.cons₂ _ h5
        · exact ⟨sent, h4, List.Sublist.cons _ h5⟩
    | receive response =>
      have hinv2 : ∀ k, (mapGet (c.handleResponse h response).client.callbacks k).isSome = true →
          k ≤ (c.handleResponse h response).client.eventID := by
        intro k hk
        rw [handleResponse_eventID]
        exact hinv k (handleResponse_callbacks c h response k hk)
      simp only [runClientSteps]
      split
      · obtain ⟨h1, h2, h3, sent, h4, h5⟩ := ih (c.handleResponse h response).client hinv2
        rw [handleResponse_eventID] at h2
        rw [handleResponse_written] at h4
        exact ⟨h1, h2, h3, sent, h4, h5⟩
      · exact ⟨List.Pairwise.nil, fun id hid => absurd hid (List.not_mem_nil id), hinv2, [],
          by rw [handleResponse_written, List.append_nil], List.Sublist.slnil⟩

/-- C15: on a client whose callbacks table has no key above the id counter
(as right after `NewScClient`), every `sendMessage` call raises the counter
by one, stores the closure under the new value and leaves every pending
entry as it is; the request it builds carries the new value as its `ID`,
and that request is written to the connection exactly when it was
marshalled, the connection exists and the write succeeds, and is put on
`messageQueue` exactly when it was marshalled and not written. Along any
sequence of `sendMessage` calls and handled responses the ids issued are
strictly increasing and above the counter at the start, no key of the
table exceeds the counter, and the requests written are appended in order,
each under one of the ids issued. -/
theorem sendMessage_issues_fresh_ids (c : ScClient)
    (hinv : ∀ k, (mapGet c.callbacks k).isSome = true → k ≤ c.eventID) :
    (∀ (env : SendEnv) (actionType : String) (payload : GoValue) (callback : ReplyHandler),
      (c.sendMessage env actionType payload callback).eventID = c.eventID + 1 ∧
      mapGet (c.sendMessage env actionType payload callback).callbacks (c.eventID + 1) =
        some callback ∧
      (c.sendMessage env actionType payload callback).written =
        (if (env.marshalOk && c.connected && env.writeOk) = true then
          c.written ++ [{ ID := c.eventID + 1, Typ := actionType, Payload := payload }]
        else c.written) ∧
      (c.sendMessage env actionType payload callback).messageQueue =
        (if (env.marshalOk && !(c.connected && env.writeOk)) = true then
          c.messageQueue ++
            [{ actionType := actionType, payload := payload, callback := callback }]
        else c.messageQueue) ∧
      (∀ (k : Int) (cb : ReplyHandler), mapGet c.callbacks k = some cb →
        mapGet (c.sendMessage env actionType payload callback).callbacks k = some cb) ∧
      ∀ k : Int, k ≠ c.eventID + 1 →
        mapGet (c.sendMessage env actionType payload callback).callbacks k =
          mapGet c.callbacks k) ∧
    ∀ (h : Handlers) (steps : List ClientStep),
      (runClientSteps h c steps).2.Pairwise (· < ·) ∧
      (∀ id ∈ (runClientSteps h c steps).2, c.eventID < id) ∧
      (∀ k, (mapGet (runClientSteps h c steps).1.callbacks k).isSome = true →
        k ≤ (runClientSteps h c steps).1.eventID) ∧
      ∃ sent : List Request, (runClientSteps h c steps).1.written = c.written ++ sent ∧
        (sent.map (fun r => r.ID)).Sublist (runClientSteps h c steps).2 := by
  refine ⟨?_, fun h steps => runClientSteps_inv h steps c hinv⟩
  intro env actionType payload callback
  refine ⟨sendMessage_eventID _ _ _ _ _, ?_, sendMessage_written_eq _ _ _ _ _,
    sendMessage_messageQueue_eq _ _ _ _ _, ?_, ?_⟩
  · simp only [sendMessage_callbacks, mapGet_mapSet, if_true]
  · intro k cb hk
    have hle := hinv k (by simp [hk])
    have hne : ¬ c.eventID + 1 = k := by omega
    simp only [sendMessage_callbacks, mapGet_mapSet, hne, if_false, hk]
  · intro k hk
    have hne : ¬ c.eventID + 1 = k := fun e => hk e.symm
    simp only [sendMessage_callbacks, mapGet_mapSet, hne, if_false]

/-- Witness of C15: two requests sent from `idleClient` with the reply to
the first handled in between get the ids 1 and 2, and the connection was
given the two requests under these ids; a third one whose write fails gets
the id 3 and goes to `messageQueue` instead. -/
theorem sendMessage_issues_fresh_ids_witness :
    ((runClientSteps quietHandlers idleClient
      [.send ⟨true, true⟩ "search_template" .nil .templateSearch, .receive replyOne,
       .send ⟨true, true⟩ "delete_elements" .nil .deleteElements,
       .send ⟨true, false⟩ "keynodes" .nil .resolveKeynodes]).2 = [1, 2, 3] ∧
     (runClientSteps quietHandlers idleClient
      [.send ⟨true, true⟩ "search_template" .nil .templateSearch, .receive replyOne,
       .send ⟨true, true⟩ "delete_elements" .nil .deleteElements,
       .send ⟨true, false⟩ "keynodes" .nil .resolveKeynodes]).1 =
      { connected := true,
        messageQueue := [⟨"keynodes", .nil, .resolveKeynodes⟩],
        callbacks := [(3, .resolveKeynodes), (2, .deleteElements)],
        events := [], eventID := 3,
        written := [⟨1, "search_template", .nil⟩, ⟨2, "delete_elements", .nil⟩] }) ∧
    (runClientSteps quietHandlers idleClient
      [.send ⟨true, true⟩ "search_template" .nil .templateSearch, .receive replyOne,
       .send ⟨true, true⟩ "delete_elements" .nil .deleteElements,
       .send ⟨true, false⟩ "keynodes" .nil .resolveKeynodes]).2.Pairwise (· < ·) ∧
    (idleClient.sendMessage ⟨true, true⟩ "search_template" .nil .templateSearch).written =
      [⟨1, "search_template", .nil⟩] :=
  ⟨⟨rfl, rfl⟩,
   ((sendMessage_issues_fresh_ids idleClient
    (by intro k hk; simp [idleClient, mapGet] at hk)).2 quietHandlers _).1,
   ((sendMessage_issues_fresh_ids idleClient
    (by intro k hk; simp [idleClient, mapGet] at hk)).1 ⟨true, true⟩ "search_template" .nil
      .templateSearch).2.2.1⟩

theorem mapGet_foldl_mapDelete {V : Type} (ids : List Int) (m : List (Int × V)) (j : Int) :
    mapGet (ids.foldl mapDelete m) j = if j ∈ ids then none else mapGet m j := by
  induction ids generalizing m with
  | nil => simp
  | cons i rest ih =>
    simp only [List.foldl_cons, ih, mapGet_mapDelete, List.mem_cons]
    by_cases h1 : j ∈ rest
    · simp [h1]
    · by_cases h2 : j = i
      · simp [h2]
      · simp [h1, h2]

/-- C16 (counterexample): `EventsDestroy` of the subscriptions 5 and 6 on
`subscribedClient` returns an error and leaves both in the event table when
the store replies with a failure status, and also when it never replies. -/
theorem EventsDestroy_keeps_events_on_failure :
    (subscribedClient.EventsDestroy ⟨true, true⟩ [5, 6] (some false)).2 =
      some "failed to destroy events" ∧
    (mapGet (subscribedClient.EventsDestroy ⟨true, true⟩ [5, 6] (some false)).1.events
      5).isSome = true ∧
    (subscribedClient.EventsDestroy ⟨true, true⟩ [5, 6] none).2 =
      some "timeout while destroying events" ∧
    (mapGet (subscribedClient.EventsDestroy ⟨true, true⟩ [5, 6] none).1.events
      5).isSome = true := by
  refine ⟨rfl, rfl, rfl, rfl⟩

/-- C16 (amended): when the store acknowledges, `EventsDestroy(ids)` returns
nil and none of the ids is in the event table afterwards, the other
subscriptions staying; when the store replies with a failure status or
never replies, `EventsDestroy` returns an error and the event table is as
before. -/
theorem EventsDestroy_removes_on_ack (c : ScClient) (env : SendEnv) (ids : List Int) :
    ((c.EventsDestroy env ids (some true)).2 = none ∧
      (∀ id ∈ ids, mapGet (c.EventsDestroy env ids (some true)).1.events id = none) ∧
      ∀ j, j ∉ ids →
        mapGet (c.EventsDestroy env ids (some true)).1.events j = mapGet c.events j) ∧
    ((c.EventsDestroy env ids (some false)).2 = some "failed to destroy events" ∧
      (c.EventsDestroy env ids (some false)).1.events = c.events) ∧
    ((c.EventsDestroy env ids none).2 = some "timeout while destroying events" ∧
      (c.EventsDestroy env ids none).1.events = c.events) := by
  refine ⟨⟨rfl, ?_, ?_⟩, ⟨rfl, ?_⟩, ⟨rfl, ?_⟩⟩
  · intro id hid
    simp [ScClient.EventsDestroy, mapGet_foldl_mapDelete, hid]
  · intro j hj
    simp [ScClient.EventsDestroy, mapGet_foldl_mapDelete, hj, sendMessage_events]
  · simp [ScClient.EventsDestroy, sendMessage_events]
  · simp [ScClient.EventsDestroy, sendMessage_events]

/-- Witness of the amended C16: after an acknowledged `EventsDestroy` of the
subscription 5 on `subscribedClient`, 5 is gone and 6 is still there. -/
theorem EventsDestroy_removes_on_ack_witness :
    mapGet (subscribedClient.EventsDestroy ⟨true, true⟩ [5] (some true)).1.events 5 = none ∧
    mapGet (subscribedClient.EventsDestroy ⟨true, true⟩ [5] (some true)).1.events 6 =
      mapGet subscribedClient.events 6 :=
  ⟨(EventsDestroy_removes_on_ack subscribedClient ⟨true, true⟩ [5]).1.2.1 5 (by decide),
   (EventsDestroy_removes_on_ack subscribedClient ⟨true, true⟩ [5]).1.2.2 6 (by decide)⟩

/-! ## Sets -/

theorem sliceIndex_zero_ok {α : Type} (xs : List α) (b : α) :
    sliceIndex xs 0 = .ok b ↔ xs[0]? = some b := by
  cases xs with
  | nil => simp [sliceIndex]
  | cons x rest =>
    simp only [sliceIndex, le_refl, if_true, Int.toNat_zero, List.get?_cons_zero,
      List.getElem?_cons_zero, Option.some.injEq]
    constructor
    · intro h; cases h; rfl
    · intro h; rw [h]

theorem onEventAddElement_cases (s : ScSet) (outcome : CallOutcome (List ScType))
    (elAddr edge other : ScAddr) (eventID : Int) (s1 : ScSet)
    (h : s.onEventAddElement outcome elAddr edge other eventID = .ok s1) :
    s1 = s ∨
    (mapGet s.Elements edge.Value = none ∧ elAddr.IsValid = true ∧
      (s.shouldAppend [elAddr] outcome).1[0]? = some true ∧
      s1 = { s with Elements := mapSet s.Elements edge.Value elAddr,
                    onAddCalls := s.onAddCalls ++ [elAddr] }) := by
  unfold ScSet.onEventAddElement at h
  cases hk : mapGet s.Elements edge.Value with
  | some v =>
    rw [hk] at h
    simp only at h
    cases h
    exact Or.inl rfl
  | none =>
    rw [hk] at h
    simp only at h
    cases hv : elAddr.IsValid with
    | false =>
      rw [hv] at h
      simp only [Bool.false_eq_true, if_false] at h
      cases h
      exact Or.inl rfl
    | true =>
      rw [hv] at h
      simp only [if_true] at h
      cases hb : sliceIndex (s.shouldAppend [elAddr] outcome).1 0 with
      | error msg => rw [hb] at h; cases h
      | ok b =>
        rw [hb] at h
        cases b with
        | false => simp only at h; cases h; exact Or.inl rfl
        | true =>
          simp only at h
          cases h
          exact Or.inr ⟨rfl, rfl, (sliceIndex_zero_ok _ _).mp hb, rfl⟩

theorem onEventAddElement_known (s : ScSet) (outcome : CallOutcome (List ScType))
    (elAddr edge other : ScAddr) (eventID : Int) (v : ScAddr)
    (h : mapGet s.Elements edge.Value = some v) :
    s.onEventAddElement outcome elAddr edge other eventID = .ok s := by
  simp only [ScSet.onEventAddElement, h]

theorem onEventAddElementUnder_known (s : ScSet) (muHeld : Bool)
    (outcome : CallOutcome (List ScType)) (elAddr edge other : ScAddr) (eventID : Int)
    (v : ScAddr) (h : mapGet s.Elements edge.Value = some v) :
    s.onEventAddElementUnder muHeld outcome elAddr edge other eventID = .returned s := by
  simp only [ScSet.onEventAddElementUnder, h]

theorem shouldAppendUnder_off_pump (s : ScSet) (addrs : List ScAddr)
    (outcome : CallOutcome (List ScType)) :
    s.shouldAppendUnder false addrs outcome = .returned (s.shouldAppend addrs outcome) := by
  unfold ScSet.shouldAppendUnder ScSet.shouldAppend
  cases s.FilterType with
  | none => rfl
  | some filter =>
    have hc : CheckElementsUnder false addrs outcome =
        .returned (CheckElements addrs outcome) := by
      unfold CheckElementsUnder CheckElements
      split
      · rfl
      · rfl
    simp only [hc]
    rcases CheckElements addrs outcome with ⟨types, _ | err⟩ <;> rfl

theorem onEventAddElementUnder_off_pump (s : ScSet) (outcome : CallOutcome (List ScType))
    (elAddr edge other : ScAddr) (eventID : Int) :
    s.onEventAddElementUnder false outcome elAddr edge other eventID =
      match s.onEventAddElement outcome elAddr edge other eventID with
      | .ok s1 => .returned s1
      | .error msg => .panicked msg := by
  unfold ScSet.onEventAddElementUnder ScSet.onEventAddElement
  cases mapGet s.Elements edge.Value with
  | some v => rfl
  | none =>
    simp only [shouldAppendUnder_off_pump]
    split
    · cases sliceIndex (s.shouldAppend [elAddr] outcome).1 0 with
      | error msg => rfl
      | ok b => cases b <;> rfl
    · rfl

theorem onEventAddElementUnder_cases (s : ScSet) (muHeld : Bool)
    (outcome : CallOutcome (List ScType)) (elAddr edge other : ScAddr) (eventID : Int)
    (s1 : ScSet)
    (h : s.onEventAddElementUnder muHeld outcome elAddr edge other eventID = .returned s1) :
    s1 = s ∨
    (mapGet s.Elements edge.Value = none ∧
      s1 = { s with Elements := mapSet s.Elements edge.Value elAddr,
                    onAddCalls := s.onAddCalls ++ [elAddr] }) := by
  unfold ScSet.onEventAddElementUnder at h
  cases hk : mapGet s.Elements edge.Value with
  | some v =>
    rw [hk] at h
    simp only at h
    cases h
    exact Or.inl rfl
  | none =>
    rw [hk] at h
    simp only at h
    split at h
    · cases hsa : s.shouldAppendUnder muHeld [elAddr] outcome with
      | blocked => rw [hsa] at h; cases h
      | panicked msg => rw [hsa] at h; cases h
      | returned r =>
        rw [hsa] at h
        simp only at h
        cases hb : sliceIndex r.1 0 with
        | error msg => rw [hb] at h; cases h
        | ok b =>
          rw [hb] at h
          cases b with
          | false => simp only at h; cases h; exact Or.inl rfl
          | true => simp only at h; cases h; exact Or.inr ⟨rfl, rfl⟩
    · cases h
      exact Or.inl rfl

/-- C17 (divergence): an add-event naming an edge that is already a key of
`Elements` returns with the set as it is, with or without the mutex held:
`Elements` is unchanged and `OnAdd` is not called. For an edge that is not
yet a key and a valid element: on a set with a type filter the handler, run
by the pump with `c.mu` held, ends waiting for that mutex inside the
`CheckElements` call of `shouldAppend`, whatever the server would answer,
so the edge is not bound and `OnAdd` is not called; on a set with no
filter it binds the edge and calls `OnAdd` once; called without the mutex
held, it binds the edge and calls `OnAdd` once whenever `shouldAppend`
admits the element. Two consecutive events with the same edge that both
return call `OnAdd` at most once together. -/
theorem add_event_blocks_under_pump (s : ScSet) (edge : ScAddr) :
    (∀ v : ScAddr, mapGet s.Elements edge.Value = some v →
      ∀ (muHeld : Bool) (outcome : CallOutcome (List ScType)) (elAddr other : ScAddr)
        (eventID : Int),
        s.onEventAddElementUnder muHeld outcome elAddr edge other eventID = .returned s) ∧
    (mapGet s.Elements edge.Value = none →
      (∀ filter : ScType, s.FilterType = some filter →
        ∀ (outcome : CallOutcome (List ScType)) (elAddr other : ScAddr) (eventID : Int),
          elAddr.IsValid = true →
          s.onEventAddElementUnder true outcome elAddr edge other eventID = .blocked) ∧
      (s.FilterType = none →
        ∀ (muHeld : Bool) (outcome : CallOutcome (List ScType)) (elAddr other : ScAddr)
          (eventID : Int), elAddr.IsValid = true →
          s.onEventAddElementUnder muHeld outcome elAddr edge other eventID =
            .returned { s with Elements := mapSet s.Elements edge.Value elAddr,
                               onAddCalls := s.onAddCalls ++ [elAddr] }) ∧
      (∀ (outcome : CallOutcome (List ScType)) (elAddr other : ScAddr) (eventID : Int),
        elAddr.IsValid = true → (s.shouldAppend [elAddr] outcome).1[0]? = some true →
        s.onEventAddElementUnder false outcome elAddr edge other eventID =
          .returned { s with Elements := mapSet s.Elements edge.Value elAddr,
                             onAddCalls := s.onAddCalls ++ [elAddr] })) ∧
    (∀ (muHeld : Bool) (outcome1 outcome2 : CallOutcome (List ScType))
      (el1 el2 other1 other2 : ScAddr) (id1 id2 : Int) (s1 s2 : ScSet),
      s.onEventAddElementUnder muHeld outcome1 el1 edge other1 id1 = .returned s1 →
      s1.onEventAddElementUnder muHeld outcome2 el2 edge other2 id2 = .returned s2 →
      s2.onAddCalls.length ≤ s.onAddCalls.length + 1) := by
  refine ⟨fun v hv muHeld outcome elAddr other eventID =>
    onEventAddElementUnder_known s muHeld outcome elAddr edge other eventID v hv, ?_, ?_⟩
  · intro hnone
    refine ⟨?_, ?_, ?_⟩
    · intro filter hf outcome elAddr other eventID hvalid
      simp [ScSet.onEventAddElementUnder, hnone, hvalid, ScSet.shouldAppendUnder, hf,
        CheckElementsUnder]
    · intro hf muHeld outcome elAddr other eventID hvalid
      simp [ScSet.onEventAddElementUnder, hnone, hvalid, ScSet.shouldAppendUnder, hf,
        sliceIndex]
    · intro outcome elAddr other eventID hvalid hpass
      rw [onEventAddElementUnder_off_pump]
      simp only [ScSet.onEventAddElement, hnone, hvalid, if_true,
        (sliceIndex_zero_ok _ _).mpr hpass]
  · intro muHeld outcome1 outcome2 el1 el2 other1 other2 id1 id2 s1 s2 h1 h2
    rcases onEventAddElementUnder_cases _ _ _ _ _ _ _ _ h1 with e1 | ⟨_, e1⟩
    · subst e1
      rcases onEventAddElementUnder_cases _ _ _ _ _ _ _ _ h2 with e2 | ⟨_, e2⟩
      · subst e2; omega
      · subst e2; simp
    · have hk : mapGet s1.Elements edge.Value = some el1 := by
        rw [e1]; simp [mapGet_mapSet]
      rw [onEventAddElementUnder_known s1 muHeld outcome2 el2 edge other2 id2 el1 hk] at h2
      cases h2
      rw [e1]
      simp

/-- Witness of C17: `filteredSet` filters on the mask 33 and does not hold
the edge 41. The push `addPush` of its add subscription, handled by the
pump, calls the add handler once and leaves the pump waiting with the
mutex held, although the server would report the type 33 for the element
9, with which the handler called without the mutex binds 41 to 9 and calls
`OnAdd` with 9. An event naming the known edge 40 returns with the set
unchanged. -/
theorem add_event_blocks_under_pump_witness :
    filteredSet.onEventAddElementUnder true (.replied [⟨33⟩]) ⟨9⟩ ⟨41⟩ ⟨8⟩ 5 = .blocked ∧
    (subscribedClient.handleResponse (filteredSet.pumpHandlers (.replied [⟨33⟩]))
      addPush).blocked = true ∧
    (subscribedClient.handleResponse (filteredSet.pumpHandlers (.replied [⟨33⟩]))
      addPush).invoked = [.event .onEventAddElement ⟨9⟩ ⟨41⟩ ⟨8⟩ 5] ∧
    filteredSet.onEventAddElementUnder false (.replied [⟨33⟩]) ⟨9⟩ ⟨41⟩ ⟨8⟩ 5 =
      .returned { filteredSet with Elements := [(41, ⟨9⟩), (40, ⟨7⟩)],
                                   onAddCalls := [⟨7⟩, ⟨9⟩] } ∧
    filteredSet.onEventAddElementUnder true .timedOut ⟨9⟩ ⟨40⟩ ⟨100⟩ 5 =
      .returned filteredSet :=
  ⟨((add_event_blocks_under_pump filteredSet ⟨41⟩).2.1 rfl).1 ⟨33⟩ rfl (.replied [⟨33⟩])
      ⟨9⟩ ⟨8⟩ 5 rfl,
   rfl, rfl,
   ((add_event_blocks_under_pump filteredSet ⟨41⟩).2.1 rfl).2.2 (.replied [⟨33⟩]) ⟨9⟩ ⟨8⟩ 5
     rfl rfl,
   (add_event_blocks_under_pump filteredSet ⟨40⟩).1 ⟨7⟩ rfl true .timedOut ⟨9⟩ ⟨100⟩ 5⟩

theorem shouldAppend_congr (s s1 : ScSet) (h : s1.FilterType = s.FilterType)
    (addrs : List ScAddr) (outcome : CallOutcome (List ScType)) :
    s1.shouldAppend addrs outcome = s.shouldAppend addrs outcome := by
  simp only [ScSet.shouldAppend, h]

theorem seedLoop_admits (checks : Nat → CallOutcome (List ScType))
    (results : List ScTemplateResult) (s : ScSet) (i : Nat) (elements : List ScAddr)
    (s1 : ScSet) (els : List ScAddr)
    (h : ScSet.seedLoop checks s i elements results = .ok (s1, els)) :
    s1.FilterType = s.FilterType ∧
    ∀ (k : Int) (v : ScAddr), mapGet s1.Elements k = some v →
      mapGet s.Elements k = some v ∨
      ∃ (j : Nat) (result : ScTemplateResult), results[j]? = some result ∧
        (∃ edge, result.Get (.string "_edge") = .ok edge ∧ edge.Value = k) ∧
        result.Get (.string "_item") = .ok v ∧
        (s.shouldAppend [v] (checks (i + j))).1[0]? = some true := by
  induction results generalizing s i elements with
  | nil =>
    simp only [ScSet.seedLoop] at h
    cases h
    exact ⟨rfl, fun k v hk => Or.inl hk⟩
  | cons result rest ih =>
    simp only [ScSet.seedLoop] at h
    cases he : result.Get (.string "_edge") with
    | error msg => rw [he] at h; cases h
    | ok edge =>
      rw [he] at h
      simp only at h
      cases hi : result.Get (.string "_item") with
      | error msg => rw [hi] at h; cases h
      | ok item =>
        rw [hi] at h
        simp only at h
        cases hb : sliceIndex (s.shouldAppend [item] (checks i)).1 0 with
        | error msg => rw [hb] at h; cases h
        | ok b =>
          rw [hb] at h
          cases b with
          | false =>
            simp only at h
            obtain ⟨hf, hall⟩ := ih s (i + 1) elements h
            refine ⟨hf, ?_⟩
            intro k v hk
            rcases hall k v hk with h1 | ⟨j, r, hj, hedge, hitem, hpass⟩
            · exact Or.inl h1
            · refine Or.inr ⟨j + 1, r, by simpa using hj, hedge, hitem, ?_⟩
              have : i + (j + 1) = i + 1 + j := by omega
              rw [this]
              exact hpass
          | true =>
            simp only at h
            obtain ⟨hf, hall⟩ := ih _ (i + 1) (elements ++ [item]) h
            refine ⟨hf, ?_⟩
            intro k v hk
            rcases hall k v hk with h1 | ⟨j, r, hj, hedge, hitem, hpass⟩
            · simp only [mapGet_mapSet] at h1
              split at h1
              · rename_i hkey
                cases h1
                refine Or.inr ⟨0, result, by simp, ⟨edge, he, hkey⟩, hi, ?_⟩
                exact (sliceIndex_zero_ok _ _).mp hb
              · exact Or.inl h1
            · refine Or.inr ⟨j + 1, r, by simpa using hj, hedge, hitem, ?_⟩
              have : i + (j + 1) = i + 1 + j := by omega
              rw [this,
                ← shouldAppend_congr s { s with Elements := mapSet s.Elements edge.Value item } rfl]
              exact hpass

/-- C18: without a filter `shouldAppend` returns `true` for every input
address; with the filter `f` and the reported types `t_1..t_n` it returns,
position by position, whether `f AND t_i = f`. An add-event and the
seeding search put a member into `Elements` only when `shouldAppend` on
that member returned `true` at position 0. -/
theorem shouldAppend_admits_by_subset (s : ScSet) :
    (s.FilterType = none → ∀ (addrs : List ScAddr) (outcome : CallOutcome (List ScType)),
      s.shouldAppend addrs outcome = (List.replicate addrs.length true, none)) ∧
    (∀ f : ScType, s.FilterType = some f →
      ∀ (addrs : List ScAddr) (types : List ScType), addrs ≠ [] →
        s.shouldAppend addrs (.replied types) =
          (types.map (fun t => decide (Int.land f.Value t.Value = f.Value)), none)) ∧
    (∀ (outcome : CallOutcome (List ScType)) (elAddr edge other : ScAddr) (eventID : Int)
      (s1 : ScSet), s.onEventAddElement outcome elAddr edge other eventID = .ok s1 →
      ∀ (k : Int) (v : ScAddr), mapGet s1.Elements k = some v →
        mapGet s.Elements k = some v ∨
        (k = edge.Value ∧ v = elAddr ∧ (s.shouldAppend [v] outcome).1[0]? = some true)) ∧
    ∀ (search : CallOutcome (List ScTemplateResult)) (checks : Nat → CallOutcome (List ScType))
      (initError : Option String) (s1 : ScSet) (err : Option String),
      s.iterateExistingElements search checks initError = .ok (s1, err) →
      ∀ (k : Int) (v : ScAddr), mapGet s1.Elements k = some v →
        mapGet s.Elements k = some v ∨
        ∃ (results : List ScTemplateResult) (j : Nat) (result : ScTemplateResult),
          search = .replied results ∧ results[j]? = some result ∧
          (∃ edge, result.Get (.string "_edge") = .ok edge ∧ edge.Value = k) ∧
          result.Get (.string "_item") = .ok v ∧
          (s.shouldAppend [v] (checks j)).1[0]? = some true := by
  refine ⟨?_, ?_, ?_, ?_⟩
  · intro hf addrs outcome
    simp only [ScSet.shouldAppend, hf]
    congr 1
    induction addrs with
    | nil => rfl
    | cons a rest ih => simp [List.replicate_succ, ih]
  · intro f hf addrs types hne
    have hlen : ¬ addrs.length = 0 := by
      intro h0
      exact hne (List.length_eq_zero.mp h0)
    simp only [ScSet.shouldAppend, hf, CheckElements, hlen, if_false]
  · intro outcome elAddr edge other eventID s1 h k v hk
    rcases onEventAddElement_cases _ _ _ _ _ _ _ h with e | ⟨_, _, hpass, e⟩
    · subst e; exact Or.inl hk
    · subst e
      simp only [mapGet_mapSet] at hk
      split at hk
      · rename_i hkey
        cases hk
        exact Or.inr ⟨hkey.symm, rfl, hpass⟩
      · exact Or.inl hk
  · intro search checks initError s1 err h k v hk
    unfold ScSet.iterateExistingElements at h
    cases ht : s.seedTemplate with
    | error msg => rw [ht] at h; cases h
    | ok t =>
      rw [ht] at h
      simp only at h
      cases search with
      | failed =>
        simp only [TemplateSearchReturn] at h
        cases h
        exact Or.inl hk
      | timedOut =>
        simp only [TemplateSearchReturn] at h
        cases h
        exact Or.inl hk
      | replied results =>
        simp only [TemplateSearchReturn] at h
        cases hl : ScSet.seedLoop checks s 0 [] results with
        | error msg => rw [hl] at h; cases h
        | ok p =>
          obtain ⟨s2, els⟩ := p
          rw [hl] at h
          simp only at h
          cases h
          obtain ⟨_, hall⟩ := seedLoop_admits checks results s 0 [] s2 els hl
          rcases hall k v hk with h1 | ⟨j, r, hj, hedge, hitem, hpass⟩
          · exact Or.inl h1
          · refine Or.inr ⟨results, j, r, rfl, hj, hedge, hitem, ?_⟩
            simpa using hpass

/-- Witness of C18: `filteredSet` filters on 33; the type 33 passes, the
type 34 (constant link) does not; seeding it with `sampleMatch`, whose item
is reported as a link, admits nothing new. -/
theorem shouldAppend_admits_by_subset_witness :
    filteredSet.shouldAppend [⟨8⟩, ⟨9⟩] (.replied [⟨33⟩, ⟨34⟩]) = ([true, false], none) ∧
    ∀ (s1 : ScSet) (err : Option String),
      filteredSet.iterateExistingElements (.replied [sampleMatch]) (fun _ => .replied [⟨34⟩])
        none = .ok (s1, err) →
      ∀ (k : Int) (v : ScAddr), mapGet s1.Elements k = some v →
        mapGet filteredSet.Elements k = some v ∨
        ∃ (results : List ScTemplateResult) (j : Nat) (result : ScTemplateResult),
          CallOutcome.replied [sampleMatch] = .replied results ∧ results[j]? = some result ∧
          (∃ edge, result.Get (.string "_edge") = .ok edge ∧ edge.Value = k) ∧
          result.Get (.string "_item") = .ok v ∧
          (filteredSet.shouldAppend [v] ((fun _ => CallOutcome.replied [⟨34⟩]) j)).1[0]? =
            some true :=
  ⟨(shouldAppend_admits_by_subset filteredSet).2.1 ⟨33⟩ rfl [⟨8⟩, ⟨9⟩] [⟨33⟩, ⟨34⟩] (by simp),
   (shouldAppend_admits_by_subset filteredSet).2.2.2 (.replied [sampleMatch])
     (fun _ => .replied [⟨34⟩]) none⟩

theorem itemTemplate_ok (s : ScSet) (addr : ScAddr) :
    s.itemTemplate addr = .ok { Triples := [
      { Source := { Value := .scAddr s.Addr, Alias := "" },
        Edge := { Value := .scType ⟨ScTypeArcPosVarPerm⟩, Alias := "_edge" },
        Target := { Value := .scAddr addr, Alias := "" } }] } := rfl

/-- C19 (counterexample): `AddItem` on `plainSet` when the search finds a
connecting edge makes the search call only and returns `true`, not `false`. -/
theorem AddItem_reports_true_when_present :
    (plainSet.AddItem ⟨8⟩ (.replied [sampleMatch]) .failed).map (fun r => r.1) =
      .ok (true, none) ∧
    (plainSet.AddItem ⟨8⟩ (.replied [sampleMatch]) .failed).map (fun r => r.2.length) =
      .ok 1 := by
  constructor <;> rfl

/-- C19 (amended): `AddItem(a)` first searches for a connecting edge. When
the search returns at least one match it makes no generate call and returns
`(true, nil)`; when the search returns no match it makes exactly one
generate call and returns `(true, nil)` if that succeeds and `false` with
the error otherwise; when the search itself fails it returns `false` with
the error and makes no generate call. -/
theorem AddItem_searches_then_generates (s : ScSet) (addr : ScAddr) :
    ∃ template, s.itemTemplate addr = .ok template ∧
      (∀ (results : List ScTemplateResult) (generate : CallOutcome ScTemplateResult),
        results ≠ [] →
        s.AddItem addr (.replied results) generate =
          .ok ((true, none), [.templateSearch template])) ∧
      (∀ result : ScTemplateResult,
        s.AddItem addr (.replied []) (.replied result) =
          .ok ((true, none), [.templateSearch template, .templateGenerate template []])) ∧
      s.AddItem addr (.replied []) .failed =
        .ok ((false, some "failed to generate template"),
          [.templateSearch template, .templateGenerate template []]) ∧
      s.AddItem addr (.replied []) .timedOut =
        .ok ((false, some "timeout while generating template"),
          [.templateSearch template, .templateGenerate template []]) ∧
      (∀ generate : CallOutcome ScTemplateResult,
        s.AddItem addr .failed generate =
          .ok ((false, some "failed to search template"), [.templateSearch template]) ∧
        s.AddItem addr .timedOut generate =
          .ok ((false, some "timeout while searching template"),
            [.templateSearch template])) := by
  refine ⟨_, itemTemplate_ok s addr, ?_, ?_, ?_, ?_, ?_⟩
  · intro results generate hne
    have hlen : ¬ results.length = 0 := fun h0 => hne (List.length_eq_zero.mp h0)
    simp only [ScSet.AddItem, itemTemplate_ok, TemplateSearchReturn, hlen, if_false]
  · intro result
    rfl
  · rfl
  · rfl
  · intro generate
    exact ⟨rfl, rfl⟩

/-- Witness of the amended C19: on `plainSet` a search with one match leads
to the search call only. -/
theorem AddItem_searches_then_generates_witness :
    ∃ template, plainSet.itemTemplate ⟨8⟩ = .ok template ∧
      plainSet.AddItem ⟨8⟩ (.replied [sampleMatch]) .timedOut =
        .ok ((true, none), [.templateSearch template]) :=
  (AddItem_searches_then_generates plainSet ⟨8⟩).elim
    (fun template h => ⟨template, h.1, h.2.1 [sampleMatch] .timedOut (by simp)⟩)

/-! ## Kinds of a type mask -/

theorem land_land_mask (v : Int) (a b : Nat) :
    Int.land (Int.land v (a : Int)) (b : Int) = Int.land v ((a &&& b : Nat) : Int) := by
  cases v with
  | ofNat m =>
    show Int.ofNat ((m &&& a) &&& b) = Int.ofNat (m &&& (a &&& b))
    rw [Nat.land_assoc]
  | negSucc m =>
    show Int.ofNat (Nat.ldiff a m &&& b) = Int.ofNat (Nat.ldiff (a &&& b) m)
    congr 1
    apply Nat.eq_of_testBit_eq
    intro i
    simp only [Nat.testBit_land, Nat.testBit_ldiff]
    cases a.testBit i <;> cases b.testBit i <;> cases m.testBit i <;> rfl

theorem land_mask_nat (v : Int) (a : Nat) (ha : a < 32) :
    ∃ n : Nat, n < 32 ∧ Int.land v (a : Int) = (n : Int) := by
  cases v with
  | ofNat m =>
    refine ⟨m &&& a, ?_, rfl⟩
    exact Nat.lt_of_le_of_lt Nat.and_le_right ha
  | negSucc m =>
    refine ⟨Nat.ldiff a m, ?_, rfl⟩
    have h1 := land_land_mask (Int.negSucc m) a a
    have h2 : Int.land (Int.land (Int.negSucc m) (a : Int)) (a : Int) =
        Int.ofNat (Nat.ldiff a m &&& a) := rfl
    have h3 : Int.land (Int.negSucc m) ((a &&& a : Nat) : Int) =
        Int.ofNat (Nat.ldiff (a &&& a) m) := rfl
    rw [h2, h3, Nat.and_self] at h1
    have h4 : Nat.ldiff a m &&& a = Nat.ldiff a m := Int.ofNat.inj h1
    rw [← h4]
    exact Nat.lt_of_le_of_lt Nat.and_le_right ha

theorem natCast_bne_zero (x : Nat) : ((x : Int) != 0) = (x != 0) := by
  cases x with
  | zero => rfl
  | succ n =>
    have h1 : ¬ ((n : Int) + 1 = 0) := by omega
    simp [bne, h1]

theorem kinds_of_low_bits (t : ScType) :
    ∃ n : Nat, n < 32 ∧ Int.land t.Value 31 = (n : Int) ∧
      Int.land t.Value 3 = ((n &&& 3 : Nat) : Int) ∧
      t.IsNode = (n &&& 1 != 0) ∧ t.IsEdge = (n &&& 28 != 0) ∧ t.IsLink = (n &&& 2 != 0) := by
  obtain ⟨n, hn, hv⟩ := land_mask_nat t.Value 31 (by decide)
  have hv2 : Int.land t.Value ((31 : Nat) : Int) = (n : Int) := hv
  have key : ∀ b : Nat, (31 &&& b = b) → Int.land t.Value (b : Int) = ((n &&& b : Nat) : Int) := by
    intro b hb
    have h1 := land_land_mask t.Value 31 b
    rw [hb, hv2] at h1
    rw [← h1]
    rfl
  refine ⟨n, hn, hv, key 3 (by decide), ?_, ?_, ?_⟩
  · have h := key 1 (by decide)
    have h2 : t.IsNode = (Int.land t.Value ((1 : Nat) : Int) != 0) := rfl
    rw [h2, h, natCast_bne_zero]
  · have h := key 28 (by decide)
    have h2 : t.IsEdge = (Int.land t.Value ((28 : Nat) : Int) != 0) := rfl
    rw [h2, h, natCast_bne_zero]
  · have h := key 2 (by decide)
    have h2 : t.IsLink = (Int.land t.Value ((2 : Nat) : Int) != 0) := rfl
    rw [h2, h, natCast_bne_zero]

theorem kinds_table : ∀ n : Nat, n < 32 →
    (n = 1 → (n &&& 1 != 0) = true ∧ (n &&& 28 != 0) = false ∧ (n &&& 2 != 0) = false) ∧
    (n = 2 → (n &&& 2 != 0) = true ∧ (n &&& 1 != 0) = false ∧ (n &&& 28 != 0) = false) ∧
    (n ≠ 0 → n &&& 3 = 0 →
      (n &&& 28 != 0) = true ∧ (n &&& 1 != 0) = false ∧ (n &&& 2 != 0) = false) := by
  decide

/-- C20: for a type whose bits under the mask 0x1F are the node bit alone,
the link bit alone, or a non-empty set of edge bits (0x4, 0x8, 0x10) with
neither the node nor the link bit, whatever the bits above 0x1F, exactly
one of `IsNode`, `IsEdge`, `IsLink` is true and it is the one of that
group; `ScTypeArcPosConstPerm` and `ScTypeArcPosVarPerm` are edges only. -/
theorem exactly_one_kind (t : ScType) :
    (Int.land t.Value 0x1F = 1 → t.IsNode = true ∧ t.IsEdge = false ∧ t.IsLink = false) ∧
    (Int.land t.Value 0x1F = 2 → t.IsLink = true ∧ t.IsNode = false ∧ t.IsEdge = false) ∧
    (Int.land t.Value 0x1F ≠ 0 → Int.land t.Value 0x3 = 0 →
      t.IsEdge = true ∧ t.IsNode = false ∧ t.IsLink = false) ∧
    ((ScType.mk ScTypeArcPosConstPerm).IsEdge = true ∧
      (ScType.mk ScTypeArcPosConstPerm).IsNode = false ∧
      (ScType.mk ScTypeArcPosConstPerm).IsLink = false) ∧
    ((ScType.mk ScTypeArcPosVarPerm).IsEdge = true ∧
      (ScType.mk ScTypeArcPosVarPerm).IsNode = false ∧
      (ScType.mk ScTypeArcPosVarPerm).IsLink = false) := by
  obtain ⟨n, hn, hv, hv3, hnode, hedge, hlink⟩ := kinds_of_low_bits t
  have hv31 : Int.land t.Value 0x1F = (n : Int) := hv
  have hv03 : Int.land t.Value 0x3 = ((n &&& 3 : Nat) : Int) := hv3
  obtain ⟨k1, k2, k3⟩ := kinds_table n hn
  refine ⟨?_, ?_, ?_, by decide, by decide⟩
  · intro h
    rw [hv31] at h
    have hn1 : n = 1 := by exact_mod_cast h
    rw [hnode, hedge, hlink]
    exact k1 hn1
  · intro h
    rw [hv31] at h
    have hn2 : n = 2 := by exact_mod_cast h
    rw [hnode, hedge, hlink]
    exact k2 hn2
  · intro h0 h3
    rw [hv31] at h0
    rw [hv03] at h3
    have hn0 : n ≠ 0 := by
      intro e
      apply h0
      rw [e]
      rfl
    have hn3 : n &&& 3 = 0 := by exact_mod_cast h3
    rw [hnode, hedge, hlink]
    exact k3 hn0 hn3

/-- Witness of C20: the masks 33 (constant node), 34 (constant link) and
2256 (variable permanent positive access edge). -/
theorem exactly_one_kind_witness :
    ((ScType.mk 33).IsNode = true ∧ (ScType.mk 33).IsEdge = false ∧
      (ScType.mk 33).IsLink = false) ∧
    ((ScType.mk 34).IsLink = true ∧ (ScType.mk 34).IsNode = false ∧
      (ScType.mk 34).IsEdge = false) ∧
    ((ScType.mk 2256).IsEdge = true ∧ (ScType.mk 2256).IsNode = false ∧
      (ScType.mk 2256).IsLink = false) :=
  ⟨(exactly_one_kind ⟨33⟩).1 (by decide), (exactly_one_kind ⟨34⟩).2.1 (by decide),
   (exactly_one_kind ⟨2256⟩).2.2.1 (by decide) (by decide)⟩

/-! ## Sets: the member bound by an add-event, and a failed type check -/

/-- C21 (the code at the failing input): on `plainSet`, whose host is 100,
the add-event (affected element 100, edge 41, other endpoint 8) binds the
edge 41 to the host 100 and calls `OnAdd` with 100, while seeding from the
match (edge 41, item 8) binds the edge 41 to the member 8. -/
theorem add_event_binds_affected_element :
    plainSet.onEventAddElement .timedOut ⟨100⟩ ⟨41⟩ ⟨8⟩ 5 =
      .ok { plainSet with Elements := [(41, ⟨100⟩)], onAddCalls := [⟨100⟩] } ∧
    (plainSet.iterateExistingElements (.replied [sampleMatch]) (fun _ => .timedOut) none).map
      (fun r => r.1.Elements) = .ok [(41, ⟨8⟩)] := by
  constructor <;> rfl

/-- C24 (the code at the failing input): on `filteredSet`, an add-event for
the valid element 9 on the unknown edge 41 panics with an index out of
range when the type check fails, times out or reports no type, and so does
seeding from one match when the type check fails. -/
theorem failed_type_check_panics :
    filteredSet.onEventAddElement .failed ⟨9⟩ ⟨41⟩ ⟨8⟩ 5 = .error "index out of range" ∧
    filteredSet.onEventAddElement .timedOut ⟨9⟩ ⟨41⟩ ⟨8⟩ 5 = .error "index out of range" ∧
    filteredSet.onEventAddElement (.replied []) ⟨9⟩ ⟨41⟩ ⟨8⟩ 5 = .error "index out of range" ∧
    filteredSet.iterateExistingElements (.replied [sampleMatch]) (fun _ => .failed) none =
      .error "index out of range" := by
  refine ⟨rfl, rfl, rfl, rfl⟩

/-! ## Encoding a template built with TripleWithRelation -/

/-- C23 (the code at the failing input): the template that
`TripleWithRelation` makes from the empty one for an address, a type, an
address, a type and an address is rejected by `prepareTemplatePayload`. -/
theorem relation_template_not_encodable :
    emptyTemplate.TripleWithRelation (.scAddr ⟨1⟩) (.scType ⟨2256⟩) (.scAddr ⟨3⟩)
      (.scType ⟨2256⟩) (.scAddr ⟨5⟩) = .ok relationTemplate ∧
    prepareTemplatePayload relationTemplate = .error "invalid triple item type" := by
  constructor <;> rfl

/-! ## Constructions: positions of aliases and the records of a batch -/

theorem run_keeps_alias_range (c : ScConstruction) (call : ConstructionCall)
    (h : ∀ (s : String) (idx : Int), c.GetIndex s = (idx, true) →
      0 ≤ idx ∧ idx < (c.Commands.length : Int)) :
    ∀ (s : String) (idx : Int), (call.run c).1.GetIndex s = (idx, true) →
      0 ≤ idx ∧ idx < ((call.run c).1.Commands.length : Int) := by
  intro s idx hs
  cases hacc : call.accepted with
  | false =>
    rw [run_rejected c call hacc] at hs ⊢
    exact h s idx hs
  | true =>
    obtain ⟨cmd, hr, _⟩ := run_accepted c call hacc
    rw [hr] at hs ⊢
    obtain ⟨hcmds, hbind, hempty⟩ := addCommand_effect c cmd call.aliasArg
    have hlen : ((c.addCommand cmd call.aliasArg).Commands.length : Int) =
        (c.Commands.length : Int) + 1 := by
      rw [hcmds]; simp
    rw [hlen]
    by_cases hal : call.aliasArg = ""
    · have hA := hempty hal
      have hsame : (c.addCommand cmd call.aliasArg).GetIndex s = c.GetIndex s := by
        simp only [ScConstruction.GetIndex, hA]
      rw [hsame] at hs
      have := h s idx hs
      omega
    · obtain ⟨hnew, hother⟩ := hbind hal
      by_cases hsa : s = call.aliasArg
      · subst hsa
        rw [hnew] at hs
        have hidx : (c.Commands.length : Int) = idx := congrArg Prod.fst hs
        omega
      · rw [hother s hsa] at hs
        have := h s idx hs
        omega

theorem runConstructionCalls_alias_range (calls : List ConstructionCall) (c : ScConstruction)
    (h : ∀ (s : String) (idx : Int), c.GetIndex s = (idx, true) →
      0 ≤ idx ∧ idx < (c.Commands.length : Int)) :
    ∀ (s : String) (idx : Int), (runConstructionCalls c calls).GetIndex s = (idx, true) →
      0 ≤ idx ∧ idx < ((runConstructionCalls c calls).Commands.length : Int) := by
  induction calls generalizing c with
  | nil => exact h
  | cons call rest ih =>
    simp only [runConstructionCalls]
    exact ih _ (run_keeps_alias_range c call h)

/-- C25: in every construction reached from the empty one by `CreateNode`,
`CreateEdge` and `CreateLink` calls, accepted or rejected, every alias that
`GetIndex` finds maps to an index `i` with `0 <= i < len(Commands)`; so
every `ref` record that `transformEdgeInfo` returns carries the position of
a command of the batch. -/
theorem alias_positions_in_range (calls : List ConstructionCall) :
    (∀ (s : String) (idx : Int),
      (runConstructionCalls emptyConstruction calls).GetIndex s = (idx, true) →
      0 ≤ idx ∧ idx < ((runConstructionCalls emptyConstruction calls).Commands.length : Int)) ∧
    ∀ (s : String) (record : List (String × GoValue)),
      transformEdgeInfo (runConstructionCalls emptyConstruction calls) (.string s) = .ok record →
      ∃ idx : Int, mapGet record "type" = some (.string "ref") ∧
        mapGet record "value" = some (.int idx) ∧
        0 ≤ idx ∧ idx < ((runConstructionCalls emptyConstruction calls).Commands.length : Int) := by
  have hinv := runConstructionCalls_alias_range calls emptyConstruction
    (by intro s idx hs; cases hs)
  refine ⟨hinv, ?_⟩
  intro s record hrec
  rcases hg : (runConstructionCalls emptyConstruction calls).GetIndex s with ⟨idx, b⟩
  cases b with
  | false =>
    rw [transformEdgeInfo_unbound _ s (by rw [hg])] at hrec
    cases hrec
  | true =>
    simp only [transformEdgeInfo, hg] at hrec
    cases hrec
    refine ⟨idx, ?_, ?_, hinv s idx hg⟩
    · simp [mapGet_mapSet, mapGet]
    · simp [mapGet_mapSet]

/-- Witness of C25: in the construction made by `sampleCalls` the alias `e`
of the edge maps to position 2 of 3 commands. -/
theorem alias_positions_in_range_witness :
    (0 : Int) ≤ 2 ∧ (2 : Int) < ((runConstructionCalls emptyConstruction sampleCalls).Commands.length : Int) :=
  (alias_positions_in_range sampleCalls).1 "e" 2 (by decide)

theorem run_accepted_command (c : ScConstruction) (call : ConstructionCall)
    (h : call.accepted = true) :
    (call.run c).1 = c.addCommand call.command call.aliasArg := by
  cases call with
  | node t al =>
    simp only [ConstructionCall.accepted] at h
    simp only [ConstructionCall.run, ScConstruction.CreateNode, h, ConstructionCall.aliasArg,
      ConstructionCall.command]
    rfl
  | edge t src trg al =>
    simp only [ConstructionCall.accepted] at h
    simp only [ConstructionCall.run, ScConstruction.CreateEdge, h, ConstructionCall.aliasArg,
      ConstructionCall.command]
    rfl
  | link t content al =>
    simp only [ConstructionCall.accepted] at h
    simp only [ConstructionCall.run, ScConstruction.CreateLink, h, ConstructionCall.aliasArg,
      ConstructionCall.command]
    rfl

theorem runConstructionCalls_commands (calls : List ConstructionCall) (c : ScConstruction)
    (h : ∀ call ∈ calls, call.accepted = true) :
    (runConstructionCalls c calls).Commands = c.Commands ++ calls.map ConstructionCall.command := by
  induction calls generalizing c with
  | nil => simp [runConstructionCalls]
  | cons call rest ih =>
    simp only [runConstructionCalls]
    rw [ih _ (fun x hx => h x (List.mem_cons_of_mem _ hx)),
      run_accepted_command c call (h call (List.mem_cons_self _ _)),
      (addCommand_effect c call.command call.aliasArg).1]
    simp

theorem mapM_ok_forall₂ {α β : Type} (f : α → Except String β) (l : List α) (ys : List β)
    (h : l.mapM f = .ok ys) : List.Forall₂ (fun x y => f x = .ok y) l ys := by
  induction l generalizing ys with
  | nil =>
    simp only [List.mapM_nil] at h
    cases h
    exact List.Forall₂.nil
  | cons a tl ih =>
    simp only [List.mapM_cons] at h
    cases hfa : f a with
    | error e => rw [hfa] at h; cases h
    | ok b =>
      cases htl : tl.mapM f with
      | error e => rw [hfa, htl] at h; cases h
      | ok bs =>
        rw [hfa, htl] at h
        cases h
        exact List.Forall₂.cons hfa (ih bs htl)

theorem mapM_ok_of_forall {α β : Type} (f : α → Except String β) (l : List α)
    (h : ∀ x ∈ l, ∃ y, f x = .ok y) : ∃ ys, l.mapM f = .ok ys := by
  induction l with
  | nil => exact ⟨[], rfl⟩
  | cons a tl ih =>
    obtain ⟨b, hb⟩ := h a (List.mem_cons_self _ _)
    obtain ⟨bs, hbs⟩ := ih (fun x hx => h x (List.mem_cons_of_mem _ hx))
    refine ⟨b :: bs, ?_⟩
    simp only [List.mapM_cons]
    rw [hb, hbs]
    rfl

theorem transformEdgeInfo_resolves (c : ScConstruction) (v : GoValue)
    (h : endpointResolves c v = true) : ∃ r, transformEdgeInfo c v = .ok r := by
  cases v <;> simp only [endpointResolves, Bool.false_eq_true] at h
  case scAddr a => exact ⟨_, rfl⟩
  case string s =>
    rcases hg : c.GetIndex s with ⟨idx, b⟩
    rw [hg] at h
    simp only at h
    subst h
    exact ⟨mapSet (mapSet [] "type" (.string "ref")) "value" (.int idx),
      by simp only [transformEdgeInfo, hg]⟩

theorem createElementRecord_of_call (c : ScConstruction) (call : ConstructionCall)
    (hacc : call.accepted = true) (hdis : call.dispatchAgrees = true) :
    (∀ v, createElementRecord c call.command = .ok v →
      ∃ record, v = .map record ∧ mapGet record "el" = some (.string call.kindName) ∧
        mapGet record "type" = some (.int call.command.Typ.Value)) ∧
    (call.endpointsResolve c = true → ∃ v, createElementRecord c call.command = .ok v) := by
  cases call with
  | node t al =>
    simp only [ConstructionCall.accepted] at hacc
    have hrec : createElementRecord c (ConstructionCall.node t al).command =
        .ok (.map (mapSet (mapSet [] "el" (.string "node")) "type" (.int t.Value))) := by
      simp only [createElementRecord, ConstructionCall.command, hacc, if_true]
    refine ⟨?_, fun _ => ⟨_, hrec⟩⟩
    intro v hv
    rw [hrec] at hv
    cases hv
    exact ⟨_, rfl, by simp [mapGet_mapSet, mapGet, ConstructionCall.kindName],
      by simp [mapGet_mapSet, ConstructionCall.command]⟩
  | edge t src trg al =>
    simp only [ConstructionCall.accepted] at hacc
    simp only [ConstructionCall.dispatchAgrees, Bool.not_eq_true'] at hdis
    have hsrc : mapIndex [("src", src), ("trg", trg)] "src" = src := rfl
    have htrg : mapIndex [("src", src), ("trg", trg)] "trg" = trg := rfl
    have hrec : createElementRecord c (ConstructionCall.edge t src trg al).command =
        (transformEdgeInfo c src >>= fun s => transformEdgeInfo c trg >>= fun g =>
          pure (.map (mapSet (mapSet (mapSet (mapSet [] "el" (.string "edge"))
            "type" (.int t.Value)) "src" (.map s)) "trg" (.map g)))) := by
      simp only [createElementRecord, ConstructionCall.command, hacc, hdis, asMap_map, ok_bind,
        hsrc, htrg, Bool.false_eq_true, if_false, if_true]
    constructor
    · intro v hv
      rw [hrec] at hv
      cases h1 : transformEdgeInfo c src with
      | error e => rw [h1] at hv; cases hv
      | ok s =>
        cases h2 : transformEdgeInfo c trg with
        | error e => rw [h1, h2] at hv; cases hv
        | ok g =>
          rw [h1, h2] at hv
          cases hv
          exact ⟨_, rfl, by simp [mapGet_mapSet, mapGet, ConstructionCall.kindName],
            by simp [mapGet_mapSet, mapGet, ConstructionCall.command]⟩
    · intro hres
      simp only [ConstructionCall.endpointsResolve, Bool.and_eq_true] at hres
      obtain ⟨s, hs⟩ := transformEdgeInfo_resolves c src hres.1
      obtain ⟨g, hg⟩ := transformEdgeInfo_resolves c trg hres.2
      rw [hrec, hs, hg]
      exact ⟨_, rfl⟩
  | link t content al =>
    simp only [ConstructionCall.accepted] at hacc
    simp only [ConstructionCall.dispatchAgrees, Bool.and_eq_true, Bool.not_eq_true'] at hdis
    have hrec : createElementRecord c (ConstructionCall.link t content al).command =
        .ok (.map (mapSet (mapSet (mapSet (mapSet [] "el" (.string "link"))
          "type" (.int t.Value)) "content"
          (mapIndex [("content", content.Data), ("type", .linkContentType content.Typ)]
            "content")) "content_type"
          (mapIndex [("content", content.Data), ("type", .linkContentType content.Typ)]
            "type"))) := by
      simp only [createElementRecord, ConstructionCall.command, hacc, hdis.1, hdis.2, asMap_map,
        ok_bind, Bool.false_eq_true, if_false, if_true]
      rfl
    refine ⟨?_, fun _ => ⟨_, hrec⟩⟩
    intro v hv
    rw [hrec] at hv
    cases hv
    exact ⟨_, rfl, by simp [mapGet_mapSet, mapGet, ConstructionCall.kindName],
      by simp [mapGet_mapSet, mapGet, ConstructionCall.command]⟩

/-- C22 (counterexample): `CreateEdge` accepts the mask 17 (node bit and
access-edge bit) between two addresses, and the record `CreateElements`
builds for that command has `el` = `node`, not `edge`. -/
theorem edge_command_encoded_as_node :
    (emptyConstruction.CreateEdge ⟨17⟩ (.scAddr ⟨1⟩) (.scAddr ⟨2⟩) "").2 = none ∧
    createElementsPayload
        (runConstructionCalls emptyConstruction [.edge ⟨17⟩ (.scAddr ⟨1⟩) (.scAddr ⟨2⟩) ""]) =
      .ok [.map [("type", .int 17), ("el", .string "node")]] := by
  constructor <;> rfl

/-- C22 (amended): for a construction built from the empty one by accepted
calls in which no `CreateEdge` mask has the node bit and no `CreateLink`
mask has a node or edge bit, the commands are those of the calls, in
order; the payload `CreateElements` builds has one record per command, in
command order, record `i` having `type` = the mask of command `i` and `el`
= `node`, `edge` or `link` by the method that added it; and the payload is
built whenever every edge endpoint is an address or a bound alias. -/
theorem createElements_records (calls : List ConstructionCall)
    (hacc : ∀ call ∈ calls, call.accepted = true)
    (hdis : ∀ call ∈ calls, call.dispatchAgrees = true) :
    (runConstructionCalls emptyConstruction calls).Commands =
      calls.map ConstructionCall.command ∧
    (∀ payload : List GoValue,
      createElementsPayload (runConstructionCalls emptyConstruction calls) = .ok payload →
      payload.length = calls.length ∧
      ∀ (i : Nat) (call : ConstructionCall), calls[i]? = some call →
        ∃ record, payload[i]? = some (GoValue.map record) ∧
          mapGet record "el" = some (.string call.kindName) ∧
          mapGet record "type" = some (.int call.command.Typ.Value)) ∧
    ((∀ call ∈ calls,
        call.endpointsResolve (runConstructionCalls emptyConstruction calls) = true) →
      ∃ payload : List GoValue,
        createElementsPayload (runConstructionCalls emptyConstruction calls) = .ok payload) := by
  have hcmds : (runConstructionCalls emptyConstruction calls).Commands =
      calls.map ConstructionCall.command := by
    rw [runConstructionCalls_commands calls emptyConstruction hacc]
    rfl
  refine ⟨hcmds, ?_, ?_⟩
  · intro payload hp
    unfold createElementsPayload at hp
    rw [hcmds] at hp
    have hrel := mapM_ok_forall₂ _ _ _ hp
    have hlen : payload.length = calls.length := by
      rw [← hrel.length_eq]; simp
    refine ⟨hlen, ?_⟩
    intro i call hi
    have hlt : i < calls.length := by
      rcases Nat.lt_or_ge i calls.length with h1 | h1
      · exact h1
      · rw [List.getElem?_eq_none h1] at hi; cases hi
    have hcall : calls[i] = call := by
      rw [List.getElem?_eq_getElem hlt] at hi
      exact Option.some.inj hi
    have hlt1 : i < (calls.map ConstructionCall.command).length := by simpa using hlt
    have hlt2 : i < payload.length := by rw [hlen]; exact hlt
    have hget := hrel.get hlt1 hlt2
    have hx : (calls.map ConstructionCall.command).get ⟨i, hlt1⟩ = call.command := by
      simp [hcall]
    rw [hx] at hget
    have hmem : call ∈ calls := by
      rw [← hcall]; exact List.getElem_mem _
    obtain ⟨record, hv, hel, hty⟩ :=
      (createElementRecord_of_call _ call (hacc call hmem) (hdis call hmem)).1 _ hget
    refine ⟨record, ?_, hel, hty⟩
    rw [List.getElem?_eq_getElem hlt2]
    exact congrArg some hv
  · intro hres
    unfold createElementsPayload
    rw [hcmds]
    apply mapM_ok_of_forall
    intro cmd hcmd
    obtain ⟨call, hmem, hc⟩ := List.mem_map.mp hcmd
    rw [← hc]
    exact (createElementRecord_of_call _ call (hacc call hmem) (hdis call hmem)).2
      (hres call hmem)

/-- Witness of the amended C22 on `sampleCalls`: three commands, three
records, the third being an edge of mask 2256. -/
theorem createElements_records_witness :
    (runConstructionCalls emptyConstruction sampleCalls).Commands =
      sampleCalls.map ConstructionCall.command ∧
    (∃ payload : List GoValue,
      createElementsPayload (runConstructionCalls emptyConstruction sampleCalls) =
        .ok payload) ∧
    ∀ payload : List GoValue,
      createElementsPayload (runConstructionCalls emptyConstruction sampleCalls) = .ok payload →
      payload.length = sampleCalls.length ∧
      ∀ (i : Nat) (call : ConstructionCall), sampleCalls[i]? = some call →
        ∃ record, payload[i]? = some (GoValue.map record) ∧
          mapGet record "el" = some (.string call.kindName) ∧
          mapGet record "type" = some (.int call.command.Typ.Value) :=
  ⟨(createElements_records sampleCalls (by decide) (by decide)).1,
   (createElements_records sampleCalls (by decide) (by decide)).2.2 (by decide),
   (createElements_records sampleCalls (by decide) (by decide)).2.1⟩

end Sc
